import Mathlib

/-!
Formal model of the BroadbandView repository: the ingestion pipeline
(`src/pipeline/src`) and the tiered resolution engine (`src/api/src`).
SQL tables are modelled as lists of rows, SQL `GROUP BY` with `MAX` /
`BOOL_OR` as explicit grouping functions, PostgreSQL `real` columns as
rationals, and the external FCC / Census endpoints as deterministic
oracles supplied through an environment record.  Failures that surface
as thrown exceptions / rejected promises in TypeScript are modelled with
`Except`.
-/

deriving instance DecidableEq for Except

namespace BroadbandView

/-- Speeds are PostgreSQL `real` (Mbps) columns; modelled as rationals. -/
abbrev Speed := ℚ

/-- One row of the `broadband_availability` base table
(`src/api/src/db/schema.ts`, table `broadbandAvailability`).  The
`id` identity column and `imported_at` timestamp play no role in any
query modelled here and are omitted. -/
structure AvailRow where
  block_geoid : String
  h3_res8_id : String
  provider_id : String
  provider_name : String
  brand_name : String
  technology_code : Nat
  max_download_speed : Speed
  max_upload_speed : Speed
  low_latency : Bool
  business_residential_code : String
  state_fips : String
  data_vintage : String
deriving DecidableEq, Repr

/-- The `GROUP BY` key of the `block_availability` materialized view
(`src/pipeline/src/run-pipeline.ts`, Step 5): `h3_res8_id, block_geoid,
provider_id, provider_name, brand_name, technology_code`.  The view also
groups by `data_vintage`, but after the `WHERE data_vintage = v` filter
that column is the constant `v`, so it is not part of the key here. -/
structure MVKey where
  h3_res8_id : String
  block_geoid : String
  provider_id : String
  provider_name : String
  brand_name : String
  technology_code : Nat
deriving DecidableEq, Repr

/-- Key extraction for the materialized-view `GROUP BY`. -/
def mvKey (r : AvailRow) : MVKey :=
  ⟨r.h3_res8_id, r.block_geoid, r.provider_id, r.provider_name,
   r.brand_name, r.technology_code⟩

/-- The `WHERE` clause of the materialized view:
`business_residential_code IN ('R', 'X') AND data_vintage = v`. -/
def eligible (v : String) (r : AvailRow) : Bool :=
  (r.business_residential_code == "R" || r.business_residential_code == "X")
    && r.data_vintage == v

/-- SQL `MAX` over a group, with a default for the (never occurring)
empty group.  `List.maximum` computes in `WithBot`. -/
def maxD {β : Type} [LinearOrder β] (d : β) (l : List β) : β :=
  (l.maximum).unbot' d

/-- SQL `BOOL_OR` over a group. -/
def orList (l : List Bool) : Bool := l.foldr (· || ·) false

/-- Generic SQL `GROUP BY`: one output row per distinct key of `rows`,
built by `mk` from the key and the rows carrying that key. -/
def groupAgg {α κ β : Type} [DecidableEq κ] (rows : List α) (key : α → κ)
    (mk : κ → List α → β) : List β :=
  (rows.map key).dedup.map fun k => mk k (rows.filter fun r => key r = k)

/-- One row of the `block_availability` materialized view. -/
structure MVRow where
  h3_res8_id : String
  block_geoid : String
  provider_id : String
  provider_name : String
  brand_name : String
  technology_code : Nat
  max_download_speed : Speed
  max_upload_speed : Speed
  low_latency : Bool
  data_vintage : String
deriving DecidableEq, Repr

/-- Builds one view row from a group key and its group,
applying `MAX(max_download_speed)`, `MAX(max_upload_speed)`,
`BOOL_OR(low_latency)` exactly as in the `CREATE MATERIALIZED VIEW`
statement of `run-pipeline.ts`. -/
def mkMVRow (v : String) (k : MVKey) (grp : List AvailRow) : MVRow :=
  { h3_res8_id := k.h3_res8_id
    block_geoid := k.block_geoid
    provider_id := k.provider_id
    provider_name := k.provider_name
    brand_name := k.brand_name
    technology_code := k.technology_code
    max_download_speed := maxD 0 (grp.map (·.max_download_speed))
    max_upload_speed := maxD 0 (grp.map (·.max_upload_speed))
    low_latency := orList (grp.map (·.low_latency))
    data_vintage := v }

/-- The rebuilt `block_availability` materialized view for vintage `v`
(`src/pipeline/src/run-pipeline.ts`, Step 5; identical SQL in
`finish-pipeline` and in the bootstrap schema file). -/
def buildMV (base : List AvailRow) (v : String) : List MVRow :=
  groupAgg (base.filter (eligible v)) mvKey (mkMVRow v)

/-- The full grouping key of a view row, for uniqueness statements. -/
def mvKeyOfRow (m : MVRow) : MVKey :=
  ⟨m.h3_res8_id, m.block_geoid, m.provider_id, m.provider_name,
   m.brand_name, m.technology_code⟩

/-- One row of the resolver's `SELECT` in `queryByH3` / `queryByGeoid`
(`src/api/src/services/availability.ts`): `provider_name,
technology_code, MAX(max_download_speed), MAX(max_upload_speed),
BOOL_OR(low_latency)`. -/
structure QueryRow where
  provider_name : String
  technology_code : Nat
  max_download_speed : Speed
  max_upload_speed : Speed
  low_latency : Bool
deriving DecidableEq, Repr

/-- The resolver queries group by `provider_name, technology_code`. -/
def qKey (m : MVRow) : String × Nat := (m.provider_name, m.technology_code)

/-- Key of a result row, for uniqueness statements. -/
def qKeyOfRow (e : QueryRow) : String × Nat := (e.provider_name, e.technology_code)

/-- Builds one resolver result row from a `(provider_name,
technology_code)` group of view rows. -/
def mkQueryRow (k : String × Nat) (grp : List MVRow) : QueryRow :=
  { provider_name := k.1
    technology_code := k.2
    max_download_speed := maxD 0 (grp.map (·.max_download_speed))
    max_upload_speed := maxD 0 (grp.map (·.max_upload_speed))
    low_latency := orList (grp.map (·.low_latency)) }

/-- Total rank used to model `ORDER BY max_download_speed DESC`.  SQL
leaves the relative order of rows with equal download speed
unspecified; the model fixes a deterministic tie-break on the remaining
columns (lexicographically), which is one legal implementation of the
source query and makes the result a function of the row multiset. -/
abbrev QRank := ℚ ×ₗ (String ×ₗ (ℕ ×ₗ (ℚ ×ₗ Bool)))

/-- Rank of a result row: descending download speed first (encoded by
negation), then all remaining columns, so that the rank determines the
row. -/
def qRank (e : QueryRow) : QRank :=
  toLex (-e.max_download_speed,
    toLex (e.provider_name,
      toLex (e.technology_code, toLex (e.max_upload_speed, e.low_latency))))

/-- Comparison used to sort resolver results. -/
def qLe (a b : QueryRow) : Prop := qRank a ≤ qRank b

instance : DecidableRel qLe := fun a b =>
  inferInstanceAs (Decidable (qRank a ≤ qRank b))

instance : IsTotal QueryRow qLe := ⟨fun a b => le_total (qRank a) (qRank b)⟩

instance : IsTrans QueryRow qLe := ⟨fun _ _ _ h h2 => le_trans h h2⟩

/-- `ORDER BY max_download_speed DESC` with the deterministic
tie-break. -/
def sortRows (l : List QueryRow) : List QueryRow := l.insertionSort qLe

/-- `queryByH3` of `src/api/src/services/availability.ts`: filter the
view by `h3_res8_id`, group by `(provider_name, technology_code)` with
`MAX` / `MAX` / `BOOL_OR`, order by descending download speed. -/
def queryByH3 (mv : List MVRow) (h3Index : String) : List QueryRow :=
  sortRows (groupAgg (mv.filter fun m => m.h3_res8_id = h3Index) qKey mkQueryRow)

/-- `queryByGeoid` of `src/api/src/services/availability.ts`: the same
aggregation filtered by `block_geoid`. -/
def queryByGeoid (mv : List MVRow) (geoid : String) : List QueryRow :=
  sortRows (groupAgg (mv.filter fun m => m.block_geoid = geoid) qKey mkQueryRow)

/-- Selects the base-table rows that feed the result row with key `k`
of a cell query: view-eligible (`R`/`X`, vintage `v`), in cell
`h3Index`, and carrying provider name and technology `k`. -/
def baseMatchH3 (v h3Index : String) (k : String × Nat) (r : AvailRow) : Bool :=
  eligible v r &&
    (decide (r.h3_res8_id = h3Index) && decide ((r.provider_name, r.technology_code) = k))

/-- Selects the base-table rows that feed the result row with key `k`
of a block query: view-eligible, in block `geoid`, and carrying
provider name and technology `k`. -/
def baseMatchGeoid (v geoid : String) (k : String × Nat) (r : AvailRow) : Bool :=
  eligible v r &&
    (decide (r.block_geoid = geoid) && decide ((r.provider_name, r.technology_code) = k))

/-! ### Geocode cache and geolocation service (`src/api/src/services/geolocation.ts`) -/

/-- One row of the `geocode_cache` table (`src/api/src/db/schema.ts`).
The identity column and `cached_at` timestamp are omitted. -/
structure GeoEntry where
  address_hash : String
  original_address : String
  lat : ℚ
  lng : ℚ
  block_geoid : Option String
  match_type : String
deriving DecidableEq, Repr

/-- Key of a geocode-cache row: sha256 of `address.toLowerCase().trim()`.
The cryptographic hash is modelled by the normalized address itself (an
injective stand-in, preserving exactly which addresses collide: equal
normalizations).  Lower-casing and trimming are spelled out over the
character list so that the model computes by kernel reduction. -/
def addrHash (address : String) : String :=
  String.mk
    ((((address.toList.map Char.toLower).dropWhile (·.isWhitespace)).reverse.dropWhile
        (·.isWhitespace)).reverse)

/-- JavaScript truthiness of a nullable string (`if (blockGeoid)`,
`if (address)`): present and non-empty. -/
def strTruthy : Option String → Bool
  | none => false
  | some s => s != ""

/-- `INSERT ... ON CONFLICT (address_hash) DO NOTHING` against the
`geocode_cache` table, whose `address_hash` column carries a UNIQUE
constraint: the row is appended only if no row with that hash exists.
Never errors (modelled by being a total function into the table). -/
def insertGeo (tbl : List GeoEntry) (e : GeoEntry) : List GeoEntry :=
  if tbl.any fun x => x.address_hash == e.address_hash then tbl else tbl ++ [e]

/-- `SELECT ... FROM geocode_cache WHERE address_hash = h LIMIT 1`. -/
def findGeo (tbl : List GeoEntry) (h : String) : Option GeoEntry :=
  tbl.find? fun x => x.address_hash == h

/-- Instrumentation: how many external calls an operation performed.
`remoteAddr` / `remoteCoord` count fetches of the Census one-line-address
and coordinate geocoder endpoints; `dbOps` counts PostgreSQL statements. -/
structure Counters where
  remoteAddr : ℕ
  remoteCoord : ℕ
  dbOps : ℕ
deriving DecidableEq, Repr

/-- Componentwise sum of counters. -/
def Counters.add (c₁ c₂ : Counters) : Counters :=
  ⟨c₁.remoteAddr + c₂.remoteAddr, c₁.remoteCoord + c₂.remoteCoord, c₁.dbOps + c₂.dbOps⟩

/-- Total Remote Geocoder invocations. -/
def Counters.remote (c : Counters) : ℕ := c.remoteAddr + c.remoteCoord

/-- Deterministic model of everything outside the API process: the
`block_availability` materialized view (`none` during the drop window of
Vintage Activation step 5), the two Census geocoder endpoints (`none` =
non-2xx, timeout, malformed payload or no match — the code collapses all
of these into "no result"), the pure third-party `latLngToCell` spatial
indexer, and the active row of `data_vintages`. -/
structure Env where
  mv : Option (List MVRow)
  byAddr : String → Option (ℚ × ℚ × Option String)
  byCoord : ℚ → ℚ → Option String
  h3Of : ℚ → ℚ → String
  activeVintage : Option String

/-- The remote part of `geocodeAddress`: fetch the one-line-address
geocoder, coerce an empty GEOID to null (`blocks?.[0]?.GEOID || null`),
write through to the geocode cache with `onConflictDoNothing`, and
return the match; any failure returns `none` (the `try/catch` and the
`!response.ok` early return). -/
def geocodeAddressRemote (env : Env) (gc : List GeoEntry) (address hash : String) :
    Option (ℚ × ℚ × Option String) × List GeoEntry × Counters :=
  match env.byAddr address with
  | none => (none, gc, ⟨1, 0, 0⟩)
  | some (la, ln, g) =>
    let bg : Option String := match g with
      | some s => if s = "" then none else some s
      | none => none
    (some (la, ln, bg), insertGeo gc ⟨hash, address, la, ln, bg, "address"⟩, ⟨1, 0, 1⟩)

/-- `geocodeAddress` of `src/api/src/services/geolocation.ts`: consult
the geocode cache first — the hit test is the source's JavaScript
condition `cached.length > 0 && cached[0].lat && cached[0].lng`, which
treats a stored latitude or longitude of exactly 0 as falsy — then fall
back to the remote endpoint. -/
def geocodeAddress (env : Env) (gc : List GeoEntry) (address : String) :
    Option (ℚ × ℚ × Option String) × List GeoEntry × Counters :=
  let hash := addrHash address
  match findGeo gc hash with
  | some e =>
    if e.lat ≠ 0 ∧ e.lng ≠ 0 then
      (some (e.lat, e.lng, e.block_geoid), gc, ⟨0, 0, 1⟩)
    else
      let (r, gc2, c) := geocodeAddressRemote env gc address hash
      (r, gc2, c.add ⟨0, 0, 1⟩)
  | none =>
    let (r, gc2, c) := geocodeAddressRemote env gc address hash
    (r, gc2, c.add ⟨0, 0, 1⟩)

/-- The remote part of `getCensusBlockGeoid`: fetch the coordinate
geocoder; on success cache the GEOID under the address hash when an
address was supplied and the GEOID is non-empty (`if (address && geoid)`),
and return the raw GEOID; all failures return `none`. -/
def getCensusBlockGeoidRemote (env : Env) (gc : List GeoEntry) (lat lng : ℚ)
    (address : Option String) : Option String × List GeoEntry × Counters :=
  match env.byCoord lat lng with
  | none => (none, gc, ⟨0, 1, 0⟩)
  | some geoid =>
    if strTruthy address && geoid != "" then
      (some geoid,
       insertGeo gc ⟨addrHash (address.getD ""), address.getD "", lat, lng, some geoid,
         "coordinates"⟩,
       ⟨0, 1, 1⟩)
    else (some geoid, gc, ⟨0, 1, 0⟩)

/-- `getCensusBlockGeoid` of `src/api/src/services/geolocation.ts`: when
an address is present, consult the geocode cache and return its GEOID if
one is stored (`cached.length > 0 && cached[0].block_geoid`); otherwise
fall back to the remote coordinate geocoder. -/
def getCensusBlockGeoid (env : Env) (gc : List GeoEntry) (lat lng : ℚ)
    (address : Option String) : Option String × List GeoEntry × Counters :=
  if strTruthy address then
    let hash := addrHash (address.getD "")
    match findGeo gc hash with
    | some e =>
      if strTruthy e.block_geoid then (e.block_geoid, gc, ⟨0, 0, 1⟩)
      else
        let (r, gc2, c) := getCensusBlockGeoidRemote env gc lat lng address
        (r, gc2, c.add ⟨0, 0, 1⟩)
    | none =>
      let (r, gc2, c) := getCensusBlockGeoidRemote env gc lat lng address
      (r, gc2, c.add ⟨0, 0, 1⟩)
  else getCensusBlockGeoidRemote env gc lat lng address

/-! ### Result cache and resolver (`src/api/src/lib/cache.ts`,
`src/api/src/services/availability.ts`, `src/api/src/routes/lookup.ts`) -/

/-- The in-memory `lookupCache` (an `LRUCache` keyed by `h3_res8_id`).
Time-to-live expiry and max-size eviction are timing/size behaviours not
modelled; the claims about it concern back-to-back calls. -/
abbrev ResultCache := List (String × List QueryRow)

/-- `lookupCache.get`. -/
def cacheGet (c : ResultCache) (k : String) : Option (List QueryRow) :=
  (c.find? fun e => e.1 == k).map (·.2)

/-- `lookupCache.set`: overwrite the entry for `k`. -/
def cacheSet (c : ResultCache) (k : String) (v : List QueryRow) : ResultCache :=
  (k, v) :: c.filter fun e => e.1 != k

/-- `lookupProviders` of `src/api/src/services/availability.ts`: LRU
cache, then the H3 query, then the Census-GEOID fallback, populating the
cache under the original `h3Index` on any non-empty result.  A missing
materialized view makes `pool.query` reject; the function has no
try/catch, so that surfaces as `Except.error`. -/
def lookupProviders (env : Env) (cache : ResultCache) (h3Index : String)
    (blockGeoid : Option String) :
    Except Unit (List QueryRow × String × ResultCache × Counters) :=
  match cacheGet cache h3Index with
  | some cached => .ok (cached, "h3", cache, ⟨0, 0, 0⟩)
  | none =>
    match env.mv with
    | none => .error ()
    | some mv =>
      let providers := queryByH3 mv h3Index
      if providers ≠ [] then
        .ok (providers, "h3", cacheSet cache h3Index providers, ⟨0, 0, 1⟩)
      else
        if strTruthy blockGeoid then
          let ps := queryByGeoid mv (blockGeoid.getD "")
          if ps ≠ [] then
            .ok (ps, "census_geocoder", cacheSet cache h3Index ps, ⟨0, 0, 2⟩)
          else .ok ([], "h3", cache, ⟨0, 0, 2⟩)
        else .ok ([], "h3", cache, ⟨0, 0, 1⟩)

/-- Request body of `POST /api/lookup` after JSON parsing.  The zod
schema makes all three fields optional. -/
structure LookupInput where
  lat : Option ℚ
  lng : Option ℚ
  address : Option String
deriving DecidableEq, Repr

/-- The `data` part of a `LookupResponse` (`src/shared/types.ts`). -/
structure LookupData where
  providers : List QueryRow
  h3_index : String
  data_vintage : Option String
  lookup_method : String
deriving DecidableEq, Repr

/-- A `LookupResponse` together with its HTTP status code. -/
structure LookupResponse where
  success : Bool
  data : LookupData
  error : Option String
  status : ℕ
deriving DecidableEq, Repr

/-- The zod validation of `lookupSchema`: optional `lat` in [-90, 90],
optional `lng` in [-180, 180] (type errors are unrepresentable in the
typed model). -/
def validInput (i : LookupInput) : Bool :=
  (match i.lat with
   | none => true
   | some v => decide (-90 ≤ v ∧ v ≤ 90)) &&
  (match i.lng with
   | none => true
   | some v => decide (-180 ≤ v ∧ v ≤ 180))

/-- The API process's mutable state: in-memory result cache plus the
persisted geocode-cache table. -/
structure SrvState where
  resultCache : ResultCache
  geoCache : List GeoEntry
deriving DecidableEq, Repr

/-- The empty `data` object sent on validation failures. -/
def emptyData : LookupData := ⟨[], "", none, "h3"⟩

/-- The coordinate path of `POST /api/lookup`: compute the H3 index, try
`lookupProviders`, fall back through `getCensusBlockGeoid` to the GEOID
query, then read the active vintage and answer.  `c0` carries counters
already incurred by the address-geocoding phase. -/
def postLookupCoords (env : Env) (st : SrvState) (la ln : ℚ) (address : Option String)
    (c0 : Counters) : Except Unit (LookupResponse × SrvState × Counters) :=
  let h3Index := env.h3Of la ln
  match lookupProviders env st.resultCache h3Index none with
  | .error e => .error e
  | .ok (providers, method, rc1, c1) =>
    if providers = [] then
      let (bg, gc2, c2) := getCensusBlockGeoid env st.geoCache la ln address
      if strTruthy bg then
        match lookupProviders env rc1 h3Index bg with
        | .error e => .error e
        | .ok (ps2, m2, rc2, c3) =>
          .ok (⟨true, ⟨ps2, h3Index, env.activeVintage, m2⟩, none, 200⟩, ⟨rc2, gc2⟩,
               (((c0.add c1).add c2).add c3).add ⟨0, 0, 1⟩)
      else
        .ok (⟨true, ⟨providers, h3Index, env.activeVintage, method⟩, none, 200⟩, ⟨rc1, gc2⟩,
             ((c0.add c1).add c2).add ⟨0, 0, 1⟩)
    else
      .ok (⟨true, ⟨providers, h3Index, env.activeVintage, method⟩, none, 200⟩,
           ⟨rc1, st.geoCache⟩, (c0.add c1).add ⟨0, 0, 1⟩)

/-- `POST /api/lookup` of `src/api/src/routes/lookup.ts` (the variant
with optional coordinates): validate, geocode the address server-side
when coordinates are missing, handle the geocoder's block-GEOID shortcut,
otherwise fall through to the coordinate path; reject with a 400 when
neither coordinates nor address are usable. -/
def postLookup (env : Env) (st : SrvState) (i : LookupInput) :
    Except Unit (LookupResponse × SrvState × Counters) :=
  if !validInput i then
    .ok (⟨false, emptyData, some "Invalid request body", 400⟩, st, ⟨0, 0, 0⟩)
  else
    if (i.lat.isNone || i.lng.isNone) && strTruthy i.address then
      let a := i.address.getD ""
      let (geo, gc1, c1) := geocodeAddress env st.geoCache a
      match geo with
      | none =>
        .ok (⟨true, ⟨[], "", none, "h3"⟩, some "Could not geocode address", 200⟩,
             ⟨st.resultCache, gc1⟩, c1)
      | some (la, ln, bg) =>
        if strTruthy bg then
          let h3Index := env.h3Of la ln
          match lookupProviders env st.resultCache h3Index bg with
          | .error e => .error e
          | .ok (providers, method, rc2, c2) =>
            .ok (⟨true, ⟨providers, h3Index, env.activeVintage, method⟩, none, 200⟩,
                 ⟨rc2, gc1⟩, (c1.add c2).add ⟨0, 0, 1⟩)
        else postLookupCoords env ⟨st.resultCache, gc1⟩ la ln i.address c1
    else
      match i.lat, i.lng with
      | some la, some ln => postLookupCoords env st la ln i.address ⟨0, 0, 0⟩
      | _, _ =>
        .ok (⟨false, emptyData, some "Either lat/lng or address is required", 400⟩, st,
             ⟨0, 0, 0⟩)

/-! ### `data_vintages` lifecycle (`src/pipeline/src/run-pipeline.ts`,
`finish-pipeline`) -/

/-- One row of the `data_vintages` table.  Timestamps are abstract
naturals (`NOW()` is passed in as a parameter); the identity column and
`fcc_as_of_date` are omitted. -/
structure VintageRow where
  vintage_id : String
  description : Option String
  import_started_at : Option ℕ
  import_completed_at : Option ℕ
  record_count : Option ℕ
  states_imported : Option String
  is_active : Bool
  created_at : ℕ
deriving DecidableEq, Repr

/-- run-pipeline Step 3 preamble: `INSERT ... VALUES (..., false) ON
CONFLICT (vintage_id) DO UPDATE SET import_started_at = NOW()`. -/
def markImportStarted (tbl : List VintageRow) (v desc : String) (now : ℕ) : List VintageRow :=
  if tbl.any fun r => r.vintage_id == v then
    tbl.map fun r =>
      if r.vintage_id == v then { r with import_started_at := some now } else r
  else tbl ++ [⟨v, some desc, some now, none, none, none, false, now⟩]

/-- run-pipeline Step 4, first statement:
`UPDATE data_vintages SET is_active = false`. -/
def deactivateAll (tbl : List VintageRow) : List VintageRow :=
  tbl.map fun r => { r with is_active := false }

/-- run-pipeline Step 4, second statement: `UPDATE data_vintages SET
record_count = $2, states_imported = $3, is_active = true,
import_completed_at = NOW() WHERE vintage_id = $1`. -/
def activateVintage (tbl : List VintageRow) (v : String) (rc : ℕ) (states : String)
    (now : ℕ) : List VintageRow :=
  tbl.map fun r =>
    if r.vintage_id == v then
      { r with record_count := some rc, states_imported := some states, is_active := true,
               import_completed_at := some now }
    else r

/-- finish-pipeline Step 4, second statement: `INSERT ... VALUES (...,
true) ON CONFLICT (vintage_id) DO UPDATE SET record_count = $3,
states_imported = $4, is_active = true, import_completed_at = NOW()`. -/
def finishActivate (tbl : List VintageRow) (v desc : String) (rc : ℕ) (states : String)
    (now : ℕ) : List VintageRow :=
  if tbl.any fun r => r.vintage_id == v then
    tbl.map fun r =>
      if r.vintage_id == v then
        { r with record_count := some rc, states_imported := some states, is_active := true,
                 import_completed_at := some now }
      else r
  else tbl ++ [⟨v, some desc, some now, some now, some rc, some states, true, now⟩]

/-- Number of rows with `is_active = true`. -/
def activeCount (tbl : List VintageRow) : ℕ := (tbl.filter fun r => r.is_active).length

/-- The vintage ids of the active rows. -/
def activeIds (tbl : List VintageRow) : List String :=
  (tbl.filter fun r => r.is_active).map (·.vintage_id)

/-! ### File Acquisition (`src/pipeline/src/download.ts`) -/

/-- One entry of the FCC file catalog.  The remaining descriptive fields
of the source interface (`category`, `subcategory`, `technology_type`,
`technology_code`, `state_name`, `provider_id`, `provider_name`) are
never read by the acquisition logic and are omitted. -/
structure FccFileEntry where
  file_id : ℕ
  file_name : String
  state_fips : String
  record_count : String
deriving DecidableEq, Repr

/-- The per-technology aggregate filename keywords of `download.ts`. -/
def TECH_FILE_KEYWORDS : List String :=
  ["Copper", "Cable", "FibertothePremises", "GSOSatellite", "NGSOSatellite",
   "UnlicensedFixedWireless", "LicensedFixedWireless", "LicensedByRuleFixedWireless"]

/-- Does `pat` occur (as a contiguous run) in the character list. -/
def containsSub (pat : List Char) : List Char → Bool
  | [] => pat.isEmpty
  | c :: rest => pat.isPrefixOf (c :: rest) || containsSub pat rest

/-- `String.includes` of JavaScript: does `pat` occur in `s`. -/
def containsStr (s pat : String) : Bool := containsSub pat.toList s.toList

/-- The regular expression `^bdc_\d{2}_([^_]+)_fixed_broadband` of
`filterFixedBroadbandFiles`: on match, the captured technology
identifier. -/
def matchTechFile (name : String) : Option String :=
  match name.toList with
  | 'b' :: 'd' :: 'c' :: '_' :: d1 :: d2 :: '_' :: rest =>
    if d1.isDigit && d2.isDigit then
      let ident := rest.takeWhile fun c => c != '_'
      if ident.length > 0 && "_fixed_broadband".toList.isPrefixOf (rest.drop ident.length) then
        some (String.mk ident)
      else none
    else none
  | _ => none

/-- `filterFixedBroadbandFiles` of `download.ts`: target state, fixed
broadband, not a summary file, and a technology-keyword aggregate file. -/
def filterFixedBroadbandFiles (files : List FccFileEntry) (stateFips : String) :
    List FccFileEntry :=
  files.filter fun f =>
    f.state_fips == stateFips &&
    containsStr f.file_name "fixed_broadband" &&
    !containsStr f.file_name "summary" &&
    (match matchTechFile f.file_name with
     | some ident => TECH_FILE_KEYWORDS.contains ident
     | none => false)

/-- Deterministic model of the FCC download endpoints: the catalog
returned by `listAvailabilityData`, whether that listing call succeeds,
and per-file success and size of `downloadFile`. -/
structure DlEnv where
  catalog : List FccFileEntry
  listOk : Bool
  fetchOk : ℕ → Bool
  sizeOf : ℕ → ℕ

/-- The download directory: existing files as (path, size in bytes).
The inter-request `sleep(RATE_LIMIT_DELAY_MS)` is pure timing and is not
modelled. -/
abbrev FS := List (String × ℕ)

/-- The module-level memo of `download.ts`: `cachedFileList` and
`cachedVintage`. -/
structure DlState where
  cachedFileList : Option (List FccFileEntry)
  cachedVintage : Option String
deriving DecidableEq, Repr

/-- Network calls performed: catalog listings and file downloads. -/
structure NetCount where
  listCalls : ℕ
  fileCalls : ℕ
deriving DecidableEq, Repr

/-- Componentwise sum of network counters. -/
def NetCount.add (a b : NetCount) : NetCount :=
  ⟨a.listCalls + b.listCalls, a.fileCalls + b.fileCalls⟩

/-- The uncached path of `fetchFileList`: one catalog fetch, which
throws (`Except.error`) when the response is not ok. -/
def fetchFileListRemote (env : DlEnv) (vintage : String) :
    Except Unit (List FccFileEntry × DlState × NetCount) :=
  if env.listOk then .ok (env.catalog, ⟨some env.catalog, some vintage⟩, ⟨1, 0⟩)
  else .error ()

/-- `fetchFileList` of `download.ts`: serve the module-level cache when
it holds this vintage (`cachedFileList && cachedVintage === vintage`),
else fetch. -/
def fetchFileList (env : DlEnv) (st : DlState) (vintage : String) :
    Except Unit (List FccFileEntry × DlState × NetCount) :=
  match st.cachedFileList with
  | some l =>
    if st.cachedVintage == some vintage then .ok (l, st, ⟨0, 0⟩)
    else fetchFileListRemote env vintage
  | none => fetchFileListRemote env vintage

/-- `fs.existsSync(outputPath)`. -/
def fsHas (fs : FS) (path : String) : Bool := fs.any fun e => e.1 == path

/-- Local path of a catalog file: `DOWNLOAD_DIR/<file_name>.zip`
(directory prefix elided). -/
def zipPath (f : FccFileEntry) : String := f.file_name ++ ".zip"

/-- `downloadFile` of `download.ts`: a single fetch of the file; on a
non-ok response it returns false (no retry, no cleanup — nothing was
written); on success the streamed file appears in the directory. -/
def downloadFile (env : DlEnv) (fileId : ℕ) (outputPath : String) (fs : FS) :
    Bool × FS × NetCount :=
  if env.fetchOk fileId then (true, fs ++ [(outputPath, env.sizeOf fileId)], ⟨0, 1⟩)
  else (false, fs, ⟨0, 1⟩)

/-- The inner per-file loop of `downloadStateData`: skip when the local
file exists (`fs.existsSync`, with no size check), else download once;
successful or pre-existing paths are collected. -/
def processFiles (env : DlEnv) (fs : FS) : List FccFileEntry → List String × FS × NetCount
  | [] => ([], fs, ⟨0, 0⟩)
  | f :: rest =>
    let path := zipPath f
    if fsHas fs path then
      let (ps, fs2, n) := processFiles env fs rest
      (path :: ps, fs2, n)
    else
      let (ok, fs1, n1) := downloadFile env f.file_id path fs
      let (ps, fs2, n2) := processFiles env fs1 rest
      (if ok then path :: ps else ps, fs2, n1.add n2)

/-- The outer per-state loop of `downloadStateData`; a state with zero
matching files is skipped, not fatal. -/
def processStates (env : DlEnv) (fs : FS) (allFiles : List FccFileEntry) :
    List String → List String × FS × NetCount
  | [] => ([], fs, ⟨0, 0⟩)
  | s :: rest =>
    let stateFiles := filterFixedBroadbandFiles allFiles s
    let (ps, fs1, n1) := processFiles env fs stateFiles
    let (ps2, fs2, n2) := processStates env fs1 allFiles rest
    (ps ++ ps2, fs2, n1.add n2)

/-- `downloadStateData` of `download.ts`: fetch the catalog once
(client-side filtering), then walk all requested states. -/
def downloadStateData (env : DlEnv) (st : DlState) (fs : FS) (vintage : String)
    (stateFips : List String) :
    Except Unit (List String × DlState × FS × NetCount) :=
  match fetchFileList env st vintage with
  | .error e => .error e
  | .ok (allFiles, st1, n0) =>
    let (ps, fs1, n1) := processStates env fs allFiles stateFips
    .ok (ps, st1, fs1, n0.add n1)

/-! ### Concrete test fixtures -/

/-- A minimal environment whose materialized view is absent (the drop
window of Vintage Activation step 5) and whose geocoder finds nothing. -/
def envNoMV : Env := ⟨none, fun _ => none, fun _ _ => none, fun _ _ => "h", none⟩

/-- One view row: Fiber 500/500 for provider Acme in cell `H`, block
`B`. -/
def mvFix : List MVRow := [⟨"H", "B", "P1", "Acme", "Acme", 50, 500, 500, true, "v1"⟩]

/-- The aggregated result row the resolver serves for `mvFix`. -/
def qrFix : QueryRow := ⟨"Acme", 50, 500, 500, true⟩

/-- An environment whose address geocoder resolves the address
`"757 x"` to latitude exactly 0 (longitude -81) with block `B`, over
the one-row store `mvFix`; every coordinate maps to cell `H`. -/
def envC7 : Env :=
  ⟨some mvFix, fun a => if a = "757 x" then some (0, -81, some "B") else none,
   fun _ _ => none, fun _ _ => "H", some "v1"⟩

/-! ### Helper lemmas: `List.maximum`, `maxD`, `orList` -/

/-- `List.maximum` is invariant under permutation. -/
theorem maximum_perm {β : Type} [LinearOrder β] {l₁ l₂ : List β} (h : l₁.Perm l₂) :
    l₁.maximum = l₂.maximum := by
  induction h with
  | nil => rfl
  | cons a _ ih => rw [List.maximum_cons, List.maximum_cons, ih]
  | swap a b l => rw [List.maximum_cons, List.maximum_cons, List.maximum_cons,
      List.maximum_cons, max_left_comm]
  | trans _ _ ih₁ ih₂ => exact ih₁.trans ih₂

/-- `maxD` is invariant under permutation. -/
theorem maxD_perm {β : Type} [LinearOrder β] (d : β) {l₁ l₂ : List β} (h : l₁.Perm l₂) :
    maxD d l₁ = maxD d l₂ := by
  unfold maxD; rw [maximum_perm h]

/-- A nonempty list has a proper maximum. -/
theorem maximum_of_ne_nil {β : Type} [LinearOrder β] {l : List β} (h : l ≠ []) :
    ∃ m : β, l.maximum = (m : WithBot β) := by
  induction l with
  | nil => exact absurd rfl h
  | cons a t ih =>
    cases t with
    | nil => exact ⟨a, by simp [List.maximum_cons]⟩
    | cons b t2 =>
      obtain ⟨m, hm⟩ := ih (by simp)
      exact ⟨max a m, by rw [List.maximum_cons, hm, ← WithBot.coe_max]⟩

/-- `maxD` of a singleton. -/
theorem maxD_singleton {β : Type} [LinearOrder β] (d a : β) : maxD d [a] = a := by
  simp [maxD, List.maximum_cons]

/-- `maxD` of a cons with a nonempty tail. -/
theorem maxD_cons_of_ne_nil {β : Type} [LinearOrder β] (d a : β) {l : List β}
    (h : l ≠ []) : maxD d (a :: l) = max a (maxD d l) := by
  obtain ⟨m, hm⟩ := maximum_of_ne_nil h
  simp [maxD, List.maximum_cons, hm, ← WithBot.coe_max]

/-- The maximum of a nonempty list, coerced back into `WithBot`, is the
`WithBot` maximum. -/
theorem coe_maxD_of_ne_nil {β : Type _} [LinearOrder β] (d : β) {l : List β}
    (h : l ≠ []) : ((maxD d l : β) : WithBot β) = l.maximum := by
  obtain ⟨m, hm⟩ := maximum_of_ne_nil h
  unfold maxD
  rw [hm, WithBot.unbot'_coe]

/-- `max` on `Bool` (with `false < true`) is disjunction. -/
theorem bool_max_eq_or (a b : Bool) : max a b = (a || b) := by
  cases a <;> cases b <;> rfl

/-- SQL `BOOL_OR` agrees with `maxD false` on every list. -/
theorem orList_eq_maxD (l : List Bool) : orList l = maxD false l := by
  induction l with
  | nil => rfl
  | cons a t ih =>
    cases t with
    | nil => cases a <;> rfl
    | cons b t2 =>
      rw [maxD_cons_of_ne_nil _ _ (by simp), ← ih, bool_max_eq_or]
      rfl

/-- `orList` is invariant under permutation. -/
theorem orList_perm {l₁ l₂ : List Bool} (h : l₁.Perm l₂) : orList l₁ = orList l₂ := by
  rw [orList_eq_maxD, orList_eq_maxD, maxD_perm _ h]

/-- Replacing the value at one key (wherever it occurs) by its join with
`v` joins `v` into the overall maximum. -/
theorem maximum_map_update {κ β : Type} [DecidableEq κ] [LinearOrder β]
    (ks : List κ) (g : κ → β) (k₀ : κ) (v : β) :
    (ks.map fun k => if k = k₀ then max v (g k) else g k).maximum
      = if k₀ ∈ ks then max (v : WithBot β) ((ks.map g).maximum)
        else (ks.map g).maximum := by
  induction ks with
  | nil => simp
  | cons a t ih =>
    by_cases ha : a = k₀
    · subst ha
      simp only [List.map_cons, List.maximum_cons, if_pos rfl, List.mem_cons, true_or,
        if_true]
      rw [ih]
      by_cases ht : a ∈ t
      · rw [if_pos ht, WithBot.coe_max, max_assoc, max_left_comm ((g a : WithBot β)),
          ← max_assoc, max_self]
      · rw [if_neg ht, WithBot.coe_max, max_assoc]
    · simp only [List.map_cons, List.maximum_cons, if_neg ha, List.mem_cons]
      rw [ih]
      by_cases ht : k₀ ∈ t
      · rw [if_pos ht, if_pos (Or.inr ht), max_left_comm]
      · rw [if_neg ht, if_neg (by rintro (h | h); exact ha h.symm; exact ht h)]

/-- Collapsing a grouped aggregation: the maximum over the per-group
maxima of the groups whose key satisfies `P` is the maximum over all
rows whose key satisfies `P`.  This is the algebraic content of the
resolver's `MAX` over rows of the materialized view, which are
themselves `MAX`es over base-table groups. -/
theorem maximum_nested {α κ β : Type} [DecidableEq κ] [LinearOrder β]
    (rows : List α) (fine : α → κ) (P : κ → Bool) (f : α → β) (d : β) :
    (((rows.map fine).dedup.filter P).map
        (fun k => maxD d ((rows.filter fun x => fine x = k).map f))).maximum
      = ((rows.filter fun x => P (fine x)).map f).maximum := by
  induction rows with
  | nil => simp
  | cons r rest ih =>
    have hG : ∀ k : κ, fine r ≠ k →
        ((r :: rest).filter fun x => fine x = k) = rest.filter fun x => fine x = k := by
      intro k hk
      rw [List.filter_cons, if_neg (by simpa using hk)]
    by_cases hmem : fine r ∈ rest.map fine
    · have hgrp : ((r :: rest).filter fun x => fine x = fine r)
          = r :: (rest.filter fun x => fine x = fine r) := by
        rw [List.filter_cons, if_pos (by simp)]
      have hne : (rest.filter fun x => fine x = fine r) ≠ [] := by
        obtain ⟨r2, hr2, hfr2⟩ := List.mem_map.mp hmem
        intro hnil
        have : r2 ∈ rest.filter fun x => fine x = fine r :=
          List.mem_filter.mpr ⟨hr2, by simpa using hfr2⟩
        simp [hnil] at this
      have hGmax : maxD d (((r :: rest).filter fun x => fine x = fine r).map f)
          = max (f r) (maxD d ((rest.filter fun x => fine x = fine r).map f)) := by
        rw [hgrp, List.map_cons, maxD_cons_of_ne_nil _ _ (by simpa using hne)]
      have hcongr :
          (((r :: rest).map fine).dedup.filter P).map
              (fun k => maxD d (((r :: rest).filter fun x => fine x = k).map f))
            = ((rest.map fine).dedup.filter P).map
              (fun k => if k = fine r
                then max (f r) (maxD d ((rest.filter fun x => fine x = k).map f))
                else maxD d ((rest.filter fun x => fine x = k).map f)) := by
        rw [List.map_cons, List.dedup_cons_of_mem hmem]
        refine List.map_congr_left fun k hk => ?_
        by_cases hkr : k = fine r
        · subst hkr
          rw [if_pos rfl, hGmax]
        · rw [if_neg hkr, hG k fun h => hkr h.symm]
      rw [hcongr, maximum_map_update]
      by_cases hP : P (fine r) = true
      · have hmemf : fine r ∈ ((rest.map fine).dedup.filter P) :=
          List.mem_filter.mpr ⟨List.mem_dedup.mpr hmem, hP⟩
        rw [if_pos hmemf, ih, List.filter_cons, if_pos (by simpa using hP),
          List.map_cons, List.maximum_cons]
      · have hmemf : fine r ∉ ((rest.map fine).dedup.filter P) := by
          intro h
          exact hP (List.mem_filter.mp h).2
        rw [if_neg hmemf, ih, List.filter_cons,
          if_neg (by simpa using hP)]
    · have hgrp : ((r :: rest).filter fun x => fine x = fine r) = [r] := by
        rw [List.filter_cons, if_pos (by simp),
          List.filter_eq_nil_iff.mpr fun x hx => by
            intro hfx
            exact hmem (List.mem_map.mpr ⟨x, hx, by simpa using hfx⟩)]
      have hcongr2 : ∀ k ∈ (rest.map fine).dedup.filter P,
          maxD d (((r :: rest).filter fun x => fine x = k).map f)
            = maxD d ((rest.filter fun x => fine x = k).map f) := by
        intro k hk
        have hkD := (List.mem_filter.mp hk).1
        have : fine r ≠ k := fun h => hmem (h ▸ List.mem_dedup.mp hkD)
        rw [hG k this]
      rw [List.map_cons, List.dedup_cons_of_not_mem hmem, List.filter_cons]
      by_cases hP : P (fine r) = true
      · rw [if_pos hP, List.map_cons, List.maximum_cons, hgrp,
          List.map_singleton, maxD_singleton, List.map_congr_left hcongr2, ih,
          List.filter_cons, if_pos (by simpa using hP), List.map_cons,
          List.maximum_cons]
      · rw [if_neg hP, List.map_congr_left hcongr2, ih, List.filter_cons,
          if_neg (by simpa using hP)]

/-! ### Helper lemmas: `groupAgg` and the sort -/

/-- Extracting the key from every output row of `groupAgg` gives exactly
the deduplicated key list. -/
theorem groupAgg_map_key {α κ β : Type} [DecidableEq κ] (rows : List α) (key : α → κ)
    (mk : κ → List α → β) (kOf : β → κ) (hk : ∀ k g, kOf (mk k g) = k) :
    (groupAgg rows key mk).map kOf = (rows.map key).dedup := by
  unfold groupAgg
  rw [List.map_map]
  have h : (kOf ∘ fun k => mk k (rows.filter fun r => key r = k)) = id :=
    funext fun k => hk _ _
  rw [h, List.map_id]

/-- Membership in a `groupAgg` result. -/
theorem mem_groupAgg {α κ β : Type} [DecidableEq κ] {rows : List α} {key : α → κ}
    {mk : κ → List α → β} {b : β} :
    b ∈ groupAgg rows key mk ↔
      ∃ k, k ∈ (rows.map key).dedup ∧ b = mk k (rows.filter fun r => key r = k) := by
  unfold groupAgg
  simp only [List.mem_map]
  constructor
  · rintro ⟨k, hk, rfl⟩; exact ⟨k, hk, rfl⟩
  · rintro ⟨k, hk, rfl⟩; exact ⟨k, hk, rfl⟩

/-- `groupAgg` maps permuted row lists to permuted results, provided the
per-group constructor only depends on the group up to permutation. -/
theorem groupAgg_perm {α κ β : Type} [DecidableEq κ] {rows₁ rows₂ : List α}
    (h : rows₁.Perm rows₂) (key : α → κ) (mk : κ → List α → β)
    (hmk : ∀ (k : κ) {g₁ g₂ : List α}, g₁.Perm g₂ → mk k g₁ = mk k g₂) :
    (groupAgg rows₁ key mk).Perm (groupAgg rows₂ key mk) := by
  unfold groupAgg
  have hkeys : ((rows₁.map key).dedup).Perm ((rows₂.map key).dedup) := (h.map key).dedup
  have h2 : ((rows₂.map key).dedup.map fun k => mk k (rows₁.filter fun r => key r = k))
      = (rows₂.map key).dedup.map fun k => mk k (rows₂.filter fun r => key r = k) :=
    List.map_congr_left fun k _ => hmk k (h.filter _)
  exact h2 ▸ hkeys.map _

/-- `mkMVRow` depends on its group only up to permutation. -/
theorem mkMVRow_perm (v : String) (k : MVKey) {g₁ g₂ : List AvailRow} (h : g₁.Perm g₂) :
    mkMVRow v k g₁ = mkMVRow v k g₂ := by
  unfold mkMVRow
  rw [maxD_perm 0 (h.map (·.max_download_speed)), maxD_perm 0 (h.map (·.max_upload_speed)),
    orList_perm (h.map (·.low_latency))]

/-- `mkQueryRow` depends on its group only up to permutation. -/
theorem mkQueryRow_perm (k : String × Nat) {g₁ g₂ : List MVRow} (h : g₁.Perm g₂) :
    mkQueryRow k g₁ = mkQueryRow k g₂ := by
  unfold mkQueryRow
  rw [maxD_perm 0 (h.map (·.max_download_speed)), maxD_perm 0 (h.map (·.max_upload_speed)),
    orList_perm (h.map (·.low_latency))]

/-- The sort produces a `qLe`-sorted list. -/
theorem sortRows_sorted (l : List QueryRow) : (sortRows l).Sorted qLe :=
  List.sorted_insertionSort qLe l

/-- The sort permutes its input. -/
theorem sortRows_perm (l : List QueryRow) : (sortRows l).Perm l :=
  List.perm_insertionSort qLe l

/-- The rank of a result row determines the row. -/
theorem qRank_injective : Function.Injective qRank := by
  intro a b h
  cases a; cases b
  simp only [qRank, toLex_inj, Prod.mk.injEq, neg_inj] at h
  obtain ⟨h1, h2, h3, h4, h5⟩ := h
  simp_all

/-- Sorting is a function of the row multiset: permuted inputs sort to
the same list (the ranks are totally ordered and injective). -/
theorem sortRows_eq_of_perm {l₁ l₂ : List QueryRow} (h : l₁.Perm l₂) :
    sortRows l₁ = sortRows l₂ := by
  have hp : (sortRows l₁).Perm (sortRows l₂) :=
    (sortRows_perm l₁).trans (h.trans (sortRows_perm l₂).symm)
  have hs₁ : ((sortRows l₁).map qRank).Sorted (· ≤ ·) :=
    List.pairwise_map.mpr (sortRows_sorted l₁)
  have hs₂ : ((sortRows l₂).map qRank).Sorted (· ≤ ·) :=
    List.pairwise_map.mpr (sortRows_sorted l₂)
  have heq : (sortRows l₁).map qRank = (sortRows l₂).map qRank :=
    List.eq_of_perm_of_sorted (hp.map qRank) hs₁ hs₂
  exact List.map_injective_iff.mpr qRank_injective heq

/-- `qLe` implies descending download speed. -/
theorem qLe_dl {a b : QueryRow} (h : qLe a b) :
    b.max_download_speed ≤ a.max_download_speed := by
  unfold qLe qRank at h
  rcases (Prod.Lex.le_iff _ _).mp h with h1 | ⟨h1, _⟩
  · simp only at h1
    linarith [le_of_lt h1]
  · simp only at h1
    linarith [h1]

/-! ### Behaviour of the composed aggregation -/

/-- A permutation of the base table permutes the rebuilt view. -/
theorem buildMV_perm {base₁ base₂ : List AvailRow} (h : base₁.Perm base₂) (v : String) :
    (buildMV base₁ v).Perm (buildMV base₂ v) :=
  groupAgg_perm (h.filter _) mvKey (mkMVRow v) fun k => mkMVRow_perm v k

/-- A permutation of the view rows leaves the cell query's result list
unchanged. -/
theorem queryByH3_perm {mv₁ mv₂ : List MVRow} (h : mv₁.Perm mv₂) (h3Index : String) :
    queryByH3 mv₁ h3Index = queryByH3 mv₂ h3Index := by
  unfold queryByH3
  exact sortRows_eq_of_perm
    (groupAgg_perm (h.filter _) qKey mkQueryRow fun k => mkQueryRow_perm k)

/-- A permutation of the view rows leaves the block query's result list
unchanged. -/
theorem queryByGeoid_perm {mv₁ mv₂ : List MVRow} (h : mv₁.Perm mv₂) (geoid : String) :
    queryByGeoid mv₁ geoid = queryByGeoid mv₂ geoid := by
  unfold queryByGeoid
  exact sortRows_eq_of_perm
    (groupAgg_perm (h.filter _) qKey mkQueryRow fun k => mkQueryRow_perm k)

/-- No two rows of a cell-query result share a `(provider_name,
technology_code)` pair. -/
theorem queryByH3_nodup_keys (mv : List MVRow) (h3Index : String) :
    ((queryByH3 mv h3Index).map qKeyOfRow).Nodup := by
  have h1 : ((groupAgg (mv.filter fun m => m.h3_res8_id = h3Index) qKey
      mkQueryRow).map qKeyOfRow).Nodup := by
    rw [groupAgg_map_key _ qKey mkQueryRow qKeyOfRow fun k g => rfl]
    exact List.nodup_dedup _
  exact (((sortRows_perm _).map qKeyOfRow).nodup_iff).mpr h1

/-- No two rows of a block-query result share a `(provider_name,
technology_code)` pair. -/
theorem queryByGeoid_nodup_keys (mv : List MVRow) (geoid : String) :
    ((queryByGeoid mv geoid).map qKeyOfRow).Nodup := by
  have h1 : ((groupAgg (mv.filter fun m => m.block_geoid = geoid) qKey
      mkQueryRow).map qKeyOfRow).Nodup := by
    rw [groupAgg_map_key _ qKey mkQueryRow qKeyOfRow fun k g => rfl]
    exact List.nodup_dedup _
  exact (((sortRows_perm _).map qKeyOfRow).nodup_iff).mpr h1

/-- Cell-query results are ordered by descending download speed. -/
theorem queryByH3_sorted (mv : List MVRow) (h3Index : String) :
    (queryByH3 mv h3Index).Pairwise
      (fun a b => b.max_download_speed ≤ a.max_download_speed) :=
  (sortRows_sorted _).imp fun h => qLe_dl h

/-- Block-query results are ordered by descending download speed. -/
theorem queryByGeoid_sorted (mv : List MVRow) (geoid : String) :
    (queryByGeoid mv geoid).Pairwise
      (fun a b => b.max_download_speed ≤ a.max_download_speed) :=
  (sortRows_sorted _).imp fun h => qLe_dl h

/-- The two-stage aggregation (base table grouped into the view, view
grouped by the resolver) collapses, for every produced result row, to
the direct aggregate over the matching base-table rows: each speed is
the `MAX` and the low-latency flag the `BOOL_OR` over all raw rows with
that provider name and technology that pass the view's `WHERE` clause
and the query's row predicate `pRow` (a function of the group key
alone). -/
theorem query_value_general (base : List AvailRow) (v : String)
    (pKey : MVKey → Bool) (pRow : MVRow → Bool)
    (hpr : ∀ K g, pRow (mkMVRow v K g) = pKey K)
    (e : QueryRow)
    (he : e ∈ groupAgg ((buildMV base v).filter pRow) qKey mkQueryRow) :
    (((base.filter fun r =>
          eligible v r && (pKey (mvKey r) &&
            decide ((r.provider_name, r.technology_code) = qKeyOfRow e))).map
        (·.max_download_speed)).maximum = (e.max_download_speed : WithBot ℚ))
    ∧ (((base.filter fun r =>
          eligible v r && (pKey (mvKey r) &&
            decide ((r.provider_name, r.technology_code) = qKeyOfRow e))).map
        (·.max_upload_speed)).maximum = (e.max_upload_speed : WithBot ℚ))
    ∧ orList ((base.filter fun r =>
          eligible v r && (pKey (mvKey r) &&
            decide ((r.provider_name, r.technology_code) = qKeyOfRow e))).map
        (·.low_latency)) = e.low_latency := by
  classical
  obtain ⟨c, hc, he'⟩ := mem_groupAgg.mp he
  have hqk : qKeyOfRow e = c := by
    rw [he']
    rfl
  set rows : List AvailRow := base.filter (eligible v) with hrows
  set mkF : MVKey → MVRow :=
    (fun K => mkMVRow v K (rows.filter fun r => mvKey r = K)) with hmkF
  set P : MVKey → Bool :=
    (fun K => decide ((K.provider_name, K.technology_code) = c) && pKey K) with hPdef
  have hmvf : (buildMV base v).filter pRow
      = ((rows.map mvKey).dedup.filter pKey).map mkF := by
    rw [show buildMV base v = (rows.map mvKey).dedup.map mkF from rfl, List.filter_map]
    congr 1
    exact List.filter_congr fun K _ => hpr K _
  have hgrp2 : ((buildMV base v).filter pRow).filter (fun m => qKey m = c)
      = ((rows.map mvKey).dedup.filter P).map mkF := by
    rw [hmvf, List.filter_map, List.filter_filter]
    refine congrArg (List.map mkF) (List.filter_congr fun K hK => ?_)
    rw [hPdef, hmkF]
    simp [Function.comp, qKey, mkMVRow]
  have hgrpne : ((buildMV base v).filter pRow).filter (fun m => qKey m = c) ≠ [] := by
    obtain ⟨m, hm, hqm⟩ := List.mem_map.mp (List.mem_dedup.mp hc)
    intro hnil
    have hmem : m ∈ ((buildMV base v).filter pRow).filter (fun m => qKey m = c) :=
      List.mem_filter.mpr ⟨hm, by simpa using hqm⟩
    rw [hnil] at hmem
    exact absurd hmem (List.not_mem_nil m)
  have hbase : ∀ q : AvailRow → Bool,
      (q = fun r => eligible v r && (pKey (mvKey r) &&
        decide ((r.provider_name, r.technology_code) = c))) →
      (rows.filter fun x => P (mvKey x)) = base.filter q := by
    intro q hq
    rw [hrows, List.filter_filter, hq]
    refine List.filter_congr fun r _ => ?_
    rw [hPdef]
    cases hE : eligible v r <;> cases hB : pKey (mvKey r) <;>
      simp only [mvKey] at hB ⊢ <;> simp [hE, hB, Bool.and_comm]
  have hbase' := hbase _ rfl
  refine ⟨?_, ?_, ?_⟩
  · have hmapdl :
        (((buildMV base v).filter pRow).filter (fun m => qKey m = c)).map
            (·.max_download_speed)
          = ((rows.map mvKey).dedup.filter P).map
              (fun K => maxD 0 ((rows.filter fun r => mvKey r = K).map
                (·.max_download_speed))) := by
      rw [hgrp2, List.map_map, hmkF]
      exact List.map_congr_left fun K _ => rfl
    have hdl := maximum_nested rows mvKey P (·.max_download_speed) 0
    have hne : (((buildMV base v).filter pRow).filter (fun m => qKey m = c)).map
        (·.max_download_speed) ≠ [] := by
      simpa using hgrpne
    rw [hqk, ← hbase', ← hdl, ← hmapdl, he']
    exact (coe_maxD_of_ne_nil 0 hne).symm
  · have hmapul :
        (((buildMV base v).filter pRow).filter (fun m => qKey m = c)).map
            (·.max_upload_speed)
          = ((rows.map mvKey).dedup.filter P).map
              (fun K => maxD 0 ((rows.filter fun r => mvKey r = K).map
                (·.max_upload_speed))) := by
      rw [hgrp2, List.map_map, hmkF]
      exact List.map_congr_left fun K _ => rfl
    have hul := maximum_nested rows mvKey P (·.max_upload_speed) 0
    have hne : (((buildMV base v).filter pRow).filter (fun m => qKey m = c)).map
        (·.max_upload_speed) ≠ [] := by
      simpa using hgrpne
    rw [hqk, ← hbase', ← hul, ← hmapul, he']
    exact (coe_maxD_of_ne_nil 0 hne).symm
  · have hmapll :
        (((buildMV base v).filter pRow).filter (fun m => qKey m = c)).map
            (·.low_latency)
          = ((rows.map mvKey).dedup.filter P).map
              (fun K => orList ((rows.filter fun r => mvKey r = K).map
                (·.low_latency))) := by
      rw [hgrp2, List.map_map, hmkF]
      exact List.map_congr_left fun K _ => rfl
    have hmapll2 :
        ((rows.map mvKey).dedup.filter P).map
            (fun K => orList ((rows.filter fun r => mvKey r = K).map (·.low_latency)))
          = ((rows.map mvKey).dedup.filter P).map
              (fun K => maxD false ((rows.filter fun r => mvKey r = K).map
                (·.low_latency))) :=
      List.map_congr_left fun K _ => orList_eq_maxD _
    have hll := maximum_nested rows mvKey P (·.low_latency) false
    have hmax : ((((buildMV base v).filter pRow).filter (fun m => qKey m = c)).map
          (·.low_latency)).maximum
        = (((base.filter fun r =>
            eligible v r && (pKey (mvKey r) &&
              decide ((r.provider_name, r.technology_code) = c))).map
          (·.low_latency)).maximum) := by
      rw [hmapll, hmapll2, hll, hbase']
    have hRHS : (mkQueryRow c (((buildMV base v).filter pRow).filter
          fun m => qKey m = c)).low_latency
        = orList ((((buildMV base v).filter pRow).filter fun m => qKey m = c).map
            (·.low_latency)) := rfl
    rw [hqk, he', hRHS, orList_eq_maxD, orList_eq_maxD]
    unfold maxD
    rw [hmax]

/-- A `(provider_name, technology_code)` pair appears among the result
rows of a query against the rebuilt view exactly when some base-table
row matches it (is view-eligible, satisfies the query's key predicate,
and carries that provider name and technology). -/
theorem query_mem_general (base : List AvailRow) (v : String)
    (pKey : MVKey → Bool) (pRow : MVRow → Bool)
    (hpr : ∀ K g, pRow (mkMVRow v K g) = pKey K) (k : String × Nat) :
    (k ∈ (groupAgg ((buildMV base v).filter pRow) qKey mkQueryRow).map qKeyOfRow) ↔
      ∃ r ∈ base, (eligible v r && (pKey (mvKey r) &&
        decide ((r.provider_name, r.technology_code) = k))) = true := by
  rw [groupAgg_map_key _ qKey mkQueryRow qKeyOfRow fun _ _ => rfl, List.mem_dedup]
  constructor
  · intro hk
    obtain ⟨m, hm, hqm⟩ := List.mem_map.mp hk
    obtain ⟨hmBV, hpRow⟩ := List.mem_filter.mp hm
    have hmBV2 : m ∈ groupAgg (base.filter (eligible v)) mvKey (mkMVRow v) := hmBV
    obtain ⟨K, hK, hmEq⟩ := mem_groupAgg.mp hmBV2
    subst hmEq
    obtain ⟨r, hr, hKr⟩ := List.mem_map.mp (List.mem_dedup.mp hK)
    obtain ⟨hrBase, hrE⟩ := List.mem_filter.mp hr
    refine ⟨r, hrBase, ?_⟩
    have h1 : pKey (mvKey r) = true := by
      rw [hKr, ← hpr K ((base.filter (eligible v)).filter fun x => mvKey x = K)]
      exact hpRow
    have h2 : (r.provider_name, r.technology_code) = k := by
      rw [← hKr] at hqm
      exact hqm
    simp [hrE, h1, h2]
  · rintro ⟨r, hrBase, hsel⟩
    simp only [Bool.and_eq_true, decide_eq_true_eq] at hsel
    obtain ⟨hE, hpk, hptk⟩ := hsel
    refine List.mem_map.mpr
      ⟨mkMVRow v (mvKey r) ((base.filter (eligible v)).filter fun x => mvKey x = mvKey r),
        List.mem_filter.mpr ⟨?_, ?_⟩, ?_⟩
    · exact mem_groupAgg.mpr
        ⟨mvKey r,
         List.mem_dedup.mpr (List.mem_map.mpr ⟨r, List.mem_filter.mpr ⟨hrBase, hE⟩, rfl⟩),
         rfl⟩
    · rw [hpr]
      exact hpk
    · exact hptk

/-! ### Claim theorems -/

/-- C1: for every cell or block query of the resolver, duplicate
`(provider, technology)` observations are collapsed into a single result
row taking the `MAX` of both speed figures and the `BOOL_OR` of the
low-latency flag over all matching raw rows; result rows are ordered by
descending download speed; the result is the same however the source
rows were ingested (any permutation of the base table), and the same
whether served fresh from the store or from a Result Cache entry
holding the query's value.  The spec's 100/250 instance is evaluated in
the witness. -/
theorem c1_resolver_collapse (base base' : List AvailRow) (v h3Index geoid : String)
    (hperm : base.Perm base') :
    queryByH3 (buildMV base v) h3Index = queryByH3 (buildMV base' v) h3Index
  ∧ queryByGeoid (buildMV base v) geoid = queryByGeoid (buildMV base' v) geoid
  ∧ ((queryByH3 (buildMV base v) h3Index).map qKeyOfRow).Nodup
  ∧ ((queryByGeoid (buildMV base v) geoid).map qKeyOfRow).Nodup
  ∧ (queryByH3 (buildMV base v) h3Index).Pairwise
      (fun a b => b.max_download_speed ≤ a.max_download_speed)
  ∧ (queryByGeoid (buildMV base v) geoid).Pairwise
      (fun a b => b.max_download_speed ≤ a.max_download_speed)
  ∧ (∀ e ∈ queryByH3 (buildMV base v) h3Index,
        ((base.filter (baseMatchH3 v h3Index (qKeyOfRow e))).map
            (·.max_download_speed)).maximum = (e.max_download_speed : WithBot ℚ)
      ∧ ((base.filter (baseMatchH3 v h3Index (qKeyOfRow e))).map
            (·.max_upload_speed)).maximum = (e.max_upload_speed : WithBot ℚ)
      ∧ orList ((base.filter (baseMatchH3 v h3Index (qKeyOfRow e))).map
            (·.low_latency)) = e.low_latency)
  ∧ (∀ e ∈ queryByGeoid (buildMV base v) geoid,
        ((base.filter (baseMatchGeoid v geoid (qKeyOfRow e))).map
            (·.max_download_speed)).maximum = (e.max_download_speed : WithBot ℚ)
      ∧ ((base.filter (baseMatchGeoid v geoid (qKeyOfRow e))).map
            (·.max_upload_speed)).maximum = (e.max_upload_speed : WithBot ℚ)
      ∧ orList ((base.filter (baseMatchGeoid v geoid (qKeyOfRow e))).map
            (·.low_latency)) = e.low_latency)
  ∧ (∀ k : String × Nat,
        k ∈ (queryByH3 (buildMV base v) h3Index).map qKeyOfRow ↔
          ∃ r ∈ base, baseMatchH3 v h3Index k r = true)
  ∧ (∀ (env : Env) (cache : ResultCache) (bg : Option String),
        env.mv = some (buildMV base v) →
        (cacheGet cache h3Index = some (queryByH3 (buildMV base v) h3Index) →
          lookupProviders env cache h3Index bg
            = .ok (queryByH3 (buildMV base v) h3Index, "h3", cache, ⟨0, 0, 0⟩))
      ∧ (cacheGet cache h3Index = none → queryByH3 (buildMV base v) h3Index ≠ [] →
          lookupProviders env cache h3Index bg
            = .ok (queryByH3 (buildMV base v) h3Index, "h3",
                cacheSet cache h3Index (queryByH3 (buildMV base v) h3Index), ⟨0, 0, 1⟩))) := by
  refine ⟨queryByH3_perm (buildMV_perm hperm v) h3Index,
          queryByGeoid_perm (buildMV_perm hperm v) geoid,
          queryByH3_nodup_keys _ _, queryByGeoid_nodup_keys _ _,
          queryByH3_sorted _ _, queryByGeoid_sorted _ _, ?_, ?_, ?_, ?_⟩
  · intro e he
    have he' : e ∈ groupAgg ((buildMV base v).filter fun m => m.h3_res8_id = h3Index)
        qKey mkQueryRow := (sortRows_perm _).mem_iff.mp he
    exact query_value_general base v (fun K => decide (K.h3_res8_id = h3Index))
      (fun m => decide (m.h3_res8_id = h3Index)) (fun K g => rfl) e he'
  · intro e he
    have he' : e ∈ groupAgg ((buildMV base v).filter fun m => m.block_geoid = geoid)
        qKey mkQueryRow := (sortRows_perm _).mem_iff.mp he
    exact query_value_general base v (fun K => decide (K.block_geoid = geoid))
      (fun m => decide (m.block_geoid = geoid)) (fun K g => rfl) e he'
  · intro k
    refine Iff.trans ?_ (query_mem_general base v
      (fun K => decide (K.h3_res8_id = h3Index))
      (fun m => decide (m.h3_res8_id = h3Index)) (fun K g => rfl) k)
    exact ((sortRows_perm _).map qKeyOfRow).mem_iff
  · intro env cache bg hmv
    constructor
    · intro hhit
      unfold lookupProviders
      rw [hhit]
    · intro hmiss hne
      unfold lookupProviders
      rw [hmiss, hmv]
      exact if_pos hne

/-- Witness for C1: the spec's aggregate-correctness example — two raw
rows for the same (cell, provider, technology) with download speeds 100
and 250, ingested in either order, yield exactly one result row with
download speed 250 — together with the theorem instantiated at that
input. -/
theorem c1_resolver_collapse_witness :
    ([(⟨"B1", "H", "P1", "Acme", "Acme", 50, 100, 10, false, "R", "45", "v1"⟩ : AvailRow),
      ⟨"B1", "H", "P1", "Acme", "Acme", 50, 250, 20, true, "R", "45", "v1"⟩] : List AvailRow).Perm
      [⟨"B1", "H", "P1", "Acme", "Acme", 50, 250, 20, true, "R", "45", "v1"⟩,
       ⟨"B1", "H", "P1", "Acme", "Acme", 50, 100, 10, false, "R", "45", "v1"⟩]
  ∧ queryByH3 (buildMV
      [⟨"B1", "H", "P1", "Acme", "Acme", 50, 100, 10, false, "R", "45", "v1"⟩,
       ⟨"B1", "H", "P1", "Acme", "Acme", 50, 250, 20, true, "R", "45", "v1"⟩] "v1") "H"
      = [⟨"Acme", 50, 250, 20, true⟩]
  ∧ (queryByH3 (buildMV
      [⟨"B1", "H", "P1", "Acme", "Acme", 50, 100, 10, false, "R", "45", "v1"⟩,
       ⟨"B1", "H", "P1", "Acme", "Acme", 50, 250, 20, true, "R", "45", "v1"⟩] "v1") "H"
      = queryByH3 (buildMV
      [⟨"B1", "H", "P1", "Acme", "Acme", 50, 250, 20, true, "R", "45", "v1"⟩,
       ⟨"B1", "H", "P1", "Acme", "Acme", 50, 100, 10, false, "R", "45", "v1"⟩] "v1") "H") :=
  ⟨by decide, by decide,
   (c1_resolver_collapse
      [⟨"B1", "H", "P1", "Acme", "Acme", 50, 100, 10, false, "R", "45", "v1"⟩,
       ⟨"B1", "H", "P1", "Acme", "Acme", 50, 250, 20, true, "R", "45", "v1"⟩]
      [⟨"B1", "H", "P1", "Acme", "Acme", 50, 250, 20, true, "R", "45", "v1"⟩,
       ⟨"B1", "H", "P1", "Acme", "Acme", 50, 100, 10, false, "R", "45", "v1"⟩]
      "v1" "H" "B1" (by decide)).1⟩

/-! ### Lemmas about the `data_vintages` lifecycle -/

/-- Rewriting rows without touching `is_active` preserves the active
count. -/
theorem activeCount_map_congr (tbl : List VintageRow) (g : VintageRow → VintageRow)
    (hg : ∀ r, (g r).is_active = r.is_active) :
    activeCount (tbl.map g) = activeCount tbl := by
  unfold activeCount
  induction tbl with
  | nil => rfl
  | cons r t ih =>
    simp only [List.map_cons, List.filter_cons, hg r]
    cases hr : r.is_active <;> simp [ih]

/-- After `UPDATE ... SET is_active = false` no row is active. -/
theorem activeCount_deactivateAll (tbl : List VintageRow) :
    activeCount (deactivateAll tbl) = 0 := by
  unfold activeCount deactivateAll
  induction tbl with
  | nil => rfl
  | cons r t ih => simp [List.filter_cons, ih]

/-- In a duplicate-free list containing `v`, filtering for `v` yields
exactly `[v]`. -/
theorem filter_eq_singleton_of_nodup {l : List String} {v : String}
    (hnodup : l.Nodup) (hmem : v ∈ l) : l.filter (fun x => x == v) = [v] := by
  induction l with
  | nil => cases hmem
  | cons a t ih =>
    rcases List.mem_cons.mp hmem with h | h
    · subst h
      rw [List.filter_cons, if_pos (by simp)]
      have hnt := (List.nodup_cons.mp hnodup).1
      rw [List.filter_eq_nil_iff.mpr fun x hx => by
        simp only [beq_iff_eq]
        intro hxv
        exact hnt (hxv ▸ hx)]
    · have hna : a ≠ v := fun hav => (List.nodup_cons.mp hnodup).1 (hav ▸ h)
      rw [List.filter_cons, if_neg (by simpa using hna)]
      exact ih (List.nodup_cons.mp hnodup).2 h

/-- The active ids after deactivate-all followed by the targeted
activation are exactly the occurrences of `v` among the vintage ids. -/
theorem activeIds_step4 (tbl : List VintageRow) (v : String) (rc : ℕ) (states : String)
    (now : ℕ) :
    activeIds (activateVintage (deactivateAll tbl) v rc states now)
      = (tbl.map (·.vintage_id)).filter (fun x => x == v) := by
  unfold activeIds activateVintage deactivateAll
  induction tbl with
  | nil => rfl
  | cons r t ih =>
    simp only [List.map_cons, List.filter_cons]
    by_cases h : r.vintage_id == v
    · simpa [h] using ih
    · simpa [h] using ih

/-- `activeCount` is the length of `activeIds`. -/
theorem activeCount_eq_length_activeIds (tbl : List VintageRow) :
    activeCount tbl = (activeIds tbl).length := by
  unfold activeCount activeIds
  rw [List.length_map]

/-- `markImportStarted` never changes which rows are active. -/
theorem activeCount_markImportStarted (tbl : List VintageRow) (v desc : String)
    (now : ℕ) :
    activeCount (markImportStarted tbl v desc now) = activeCount tbl := by
  unfold markImportStarted
  by_cases h : tbl.any fun r => r.vintage_id == v
  · rw [if_pos h]
    refine activeCount_map_congr tbl _ fun r => ?_
    by_cases hr : r.vintage_id == v <;> simp [hr]
  · rw [if_neg h]
    unfold activeCount
    rw [List.filter_append]
    simp

/-- C2: the `data_vintages` activation step.  The two statements of
run-pipeline Step 4 visit exactly the trace `tbl → deactivateAll tbl →
activateVintage (deactivateAll tbl) v`: the only intermediate state (at
the single statement boundary) has zero active rows, the final state has
exactly one — the target vintage — and at-most-one-active is an
invariant of every modelled table operation (the target row exists
because Step 3 upserted it; `vintage_id` is duplicate-free by the
table's UNIQUE constraint).  The finish-pipeline recovery upsert
restores exactly one active row as well. -/
theorem c2_vintage_activation (tbl : List VintageRow) (v desc states : String)
    (rc now : ℕ)
    (hnodup : (tbl.map (·.vintage_id)).Nodup)
    (hmem : v ∈ tbl.map (·.vintage_id)) :
    activeCount (deactivateAll tbl) = 0
  ∧ activeCount (activateVintage (deactivateAll tbl) v rc states now) = 1
  ∧ activeIds (activateVintage (deactivateAll tbl) v rc states now) = [v]
  ∧ activeCount (markImportStarted tbl v desc now) = activeCount tbl
  ∧ activeIds (finishActivate (deactivateAll tbl) v desc rc states now) = [v]
  ∧ (activeCount tbl ≤ 1 →
      activeCount (deactivateAll tbl) ≤ 1
      ∧ activeCount (activateVintage (deactivateAll tbl) v rc states now) ≤ 1
      ∧ activeCount (markImportStarted tbl v desc now) ≤ 1) := by
  have hids : activeIds (activateVintage (deactivateAll tbl) v rc states now) = [v] := by
    rw [activeIds_step4, filter_eq_singleton_of_nodup hnodup hmem]
  have hcount : activeCount (activateVintage (deactivateAll tbl) v rc states now) = 1 := by
    rw [activeCount_eq_length_activeIds, hids]
    rfl
  have hfin : activeIds (finishActivate (deactivateAll tbl) v desc rc states now) = [v] := by
    have hany : (deactivateAll tbl).any (fun r => r.vintage_id == v) = true := by
      obtain ⟨r, hr, hrv⟩ := List.mem_map.mp hmem
      refine List.any_eq_true.mpr ⟨{ r with is_active := false }, ?_, by simpa using hrv⟩
      unfold deactivateAll
      exact List.mem_map.mpr ⟨r, hr, rfl⟩
    have : finishActivate (deactivateAll tbl) v desc rc states now
        = activateVintage (deactivateAll tbl) v rc states now := by
      unfold finishActivate activateVintage
      rw [if_pos hany]
    rw [this, hids]
  refine ⟨activeCount_deactivateAll tbl, hcount, hids,
    activeCount_markImportStarted tbl v desc now, hfin, fun h0 => ?_⟩
  refine ⟨?_, ?_, ?_⟩
  · rw [activeCount_deactivateAll tbl]
    exact Nat.zero_le 1
  · rw [hcount]
  · rw [activeCount_markImportStarted tbl v desc now]
    exact h0

/-- Witness for C2 at a concrete two-row table: the old vintage is
active, the new one pending; after Step 4 exactly the new one is
active. -/
theorem c2_vintage_activation_witness :
    (([(⟨"2024-12-31", some "old", some 1, some 2, some 10, some "[44]", true, 0⟩ : VintageRow),
       ⟨"2025-06-30", some "new", some 3, none, none, none, false, 3⟩] : List VintageRow).map
        (·.vintage_id)).Nodup
  ∧ "2025-06-30" ∈ (([(⟨"2024-12-31", some "old", some 1, some 2, some 10, some "[44]", true, 0⟩ : VintageRow),
       ⟨"2025-06-30", some "new", some 3, none, none, none, false, 3⟩] : List VintageRow).map
        (·.vintage_id))
  ∧ (activeCount (deactivateAll
        [⟨"2024-12-31", some "old", some 1, some 2, some 10, some "[44]", true, 0⟩,
         ⟨"2025-06-30", some "new", some 3, none, none, none, false, 3⟩]) = 0
    ∧ activeCount (activateVintage (deactivateAll
        [⟨"2024-12-31", some "old", some 1, some 2, some 10, some "[44]", true, 0⟩,
         ⟨"2025-06-30", some "new", some 3, none, none, none, false, 3⟩])
        "2025-06-30" 10 "[44]" 4) = 1
    ∧ activeIds (activateVintage (deactivateAll
        [⟨"2024-12-31", some "old", some 1, some 2, some 10, some "[44]", true, 0⟩,
         ⟨"2025-06-30", some "new", some 3, none, none, none, false, 3⟩])
        "2025-06-30" 10 "[44]" 4) = ["2025-06-30"]
    ∧ activeCount (markImportStarted
        [⟨"2024-12-31", some "old", some 1, some 2, some 10, some "[44]", true, 0⟩,
         ⟨"2025-06-30", some "new", some 3, none, none, none, false, 3⟩]
        "2025-06-30" "d" 4)
      = activeCount
        [⟨"2024-12-31", some "old", some 1, some 2, some 10, some "[44]", true, 0⟩,
         ⟨"2025-06-30", some "new", some 3, none, none, none, false, 3⟩]
    ∧ activeIds (finishActivate (deactivateAll
        [⟨"2024-12-31", some "old", some 1, some 2, some 10, some "[44]", true, 0⟩,
         ⟨"2025-06-30", some "new", some 3, none, none, none, false, 3⟩])
        "2025-06-30" "d" 10 "[44]" 4) = ["2025-06-30"]
    ∧ (activeCount
        [⟨"2024-12-31", some "old", some 1, some 2, some 10, some "[44]", true, 0⟩,
         ⟨"2025-06-30", some "new", some 3, none, none, none, false, 3⟩] ≤ 1 →
        activeCount (deactivateAll
          [⟨"2024-12-31", some "old", some 1, some 2, some 10, some "[44]", true, 0⟩,
           ⟨"2025-06-30", some "new", some 3, none, none, none, false, 3⟩]) ≤ 1
        ∧ activeCount (activateVintage (deactivateAll
          [⟨"2024-12-31", some "old", some 1, some 2, some 10, some "[44]", true, 0⟩,
           ⟨"2025-06-30", some "new", some 3, none, none, none, false, 3⟩])
          "2025-06-30" 10 "[44]" 4) ≤ 1
        ∧ activeCount (markImportStarted
          [⟨"2024-12-31", some "old", some 1, some 2, some 10, some "[44]", true, 0⟩,
           ⟨"2025-06-30", some "new", some 3, none, none, none, false, 3⟩]
          "2025-06-30" "d" 4) ≤ 1)) :=
  ⟨by decide, by decide,
   c2_vintage_activation
     [⟨"2024-12-31", some "old", some 1, some 2, some 10, some "[44]", true, 0⟩,
      ⟨"2025-06-30", some "new", some 3, none, none, none, false, 3⟩]
     "2025-06-30" "d" "[44]" 10 4 (by decide) (by decide)⟩

/-- C3 counterexample: the rebuilt view is NOT unique on
`(h3_res8_id, provider_id, technology_code)`.  One provider covering two
census blocks of the same H3 cell produces two view rows sharing that
triple (the view groups by the block as well, and the pipeline's
`idx_mv_h3_provider` is created as a plain, non-unique index — its own
comment says "Non-unique: multiple census blocks share the same H3
hex"). -/
theorem c3_counterexample :
    ¬ (((buildMV
        [⟨"BLKA", "H", "P1", "Acme", "Acme", 50, 100, 10, true, "R", "45", "v1"⟩,
         ⟨"BLKB", "H", "P1", "Acme", "Acme", 50, 200, 20, true, "R", "45", "v1"⟩] "v1").map
        (fun m => (m.h3_res8_id, m.provider_id, m.technology_code))).Nodup) := by
  decide

/-- C3 amended: after every rebuild the view's rows are unique on the
full grouping key `(h3_res8_id, block_geoid, provider_id, provider_name,
brand_name, technology_code)`; uniqueness on the shorter
`(h3_res8_id, provider_id, technology_code)` triple does not hold, and
the pipeline's `idx_mv_h3_provider` index is non-unique (the `CREATE
UNIQUE INDEX` variant exists only in the standalone bootstrap SQL, which
the pipeline's drop-and-recreate does not run). -/
theorem c3_mv_unique_full_key (base : List AvailRow) (v : String) :
    ((buildMV base v).map mvKeyOfRow).Nodup := by
  show ((groupAgg (base.filter (eligible v)) mvKey (mkMVRow v)).map mvKeyOfRow).Nodup
  rw [groupAgg_map_key _ mvKey (mkMVRow v) mvKeyOfRow fun k g => rfl]
  exact List.nodup_dedup _

/-! ### Lemmas about the geocode cache -/

/-- Inserting into a hash-unique table keeps the hashes unique. -/
theorem insertGeo_nodup (tbl : List GeoEntry) (e : GeoEntry)
    (hn : (tbl.map (·.address_hash)).Nodup) :
    ((insertGeo tbl e).map (·.address_hash)).Nodup := by
  unfold insertGeo
  by_cases h : tbl.any fun x => x.address_hash == e.address_hash
  · rw [if_pos h]
    exact hn
  · rw [if_neg h, List.map_append]
    rw [List.nodup_append]
    refine ⟨hn, List.nodup_singleton _, fun a ha => ?_⟩
    obtain ⟨x, hx, hxa⟩ := List.mem_map.mp ha
    simp only [List.map_cons, List.map_nil, List.mem_singleton]
    intro hae
    exact h (List.any_eq_true.mpr ⟨x, hx, by simp [hxa, hae]⟩)

/-- Appending an entry for a hash that is absent makes it the lookup
result for that hash. -/
theorem findGeo_append_of_none (tbl : List GeoEntry) (h : String) (e : GeoEntry)
    (he : e.address_hash = h) (hfind : findGeo tbl h = none) :
    findGeo (tbl ++ [e]) h = some e := by
  unfold findGeo at hfind ⊢
  induction tbl with
  | nil =>
    rw [List.nil_append]
    exact List.find?_cons_of_pos _ (by simp [he])
  | cons a t ih =>
    by_cases hh : (a.address_hash == h) = true
    · rw [List.find?_cons_of_pos t
        (show (fun x : GeoEntry => x.address_hash == h) a = true from hh)] at hfind
      cases hfind
    · rw [List.find?_cons_of_neg t
        (show ¬ (fun x : GeoEntry => x.address_hash == h) a = true from hh)] at hfind
      rw [List.cons_append, List.find?_cons_of_neg (t ++ [e])
        (show ¬ (fun x : GeoEntry => x.address_hash == h) a = true from hh)]
      exact ih hfind

/-- C8: concurrent duplicate stores into the Geocode Cache.  The
storage layer serializes the two inserts in one of the two orders; in
both orders the `ON CONFLICT DO NOTHING` insert never errors (it is a
total operation on the table), the hash-uniqueness constraint is
preserved, the first writer wins and the later insert for the same hash
is ignored, and a previously stored entry is never overwritten. -/
theorem c8_geocode_store_race (tbl : List GeoEntry) (e₁ e₂ : GeoEntry)
    (hn : (tbl.map (·.address_hash)).Nodup)
    (hsame : e₁.address_hash = e₂.address_hash) :
    ((insertGeo (insertGeo tbl e₁) e₂).map (·.address_hash)).Nodup
  ∧ ((insertGeo (insertGeo tbl e₂) e₁).map (·.address_hash)).Nodup
  ∧ (findGeo tbl e₁.address_hash = none →
        insertGeo (insertGeo tbl e₁) e₂ = tbl ++ [e₁]
      ∧ insertGeo (insertGeo tbl e₂) e₁ = tbl ++ [e₂]
      ∧ findGeo (insertGeo (insertGeo tbl e₁) e₂) e₁.address_hash = some e₁
      ∧ findGeo (insertGeo (insertGeo tbl e₂) e₁) e₁.address_hash = some e₂)
  ∧ (∀ e₀, findGeo tbl e₁.address_hash = some e₀ →
        findGeo (insertGeo tbl e₁) e₁.address_hash = some e₀
      ∧ findGeo (insertGeo tbl e₂) e₁.address_hash = some e₀) := by
  have hnone : ∀ (e : GeoEntry), e.address_hash = e₁.address_hash →
      findGeo tbl e₁.address_hash = none → insertGeo tbl e = tbl ++ [e] := by
    intro e he hfind
    unfold insertGeo
    rw [if_neg]
    intro hany
    obtain ⟨x, hx, hxe⟩ := List.any_eq_true.mp hany
    have := List.find?_eq_none.mp hfind x hx
    simp only [beq_iff_eq] at hxe this
    exact this (by rw [hxe, he])
  have happend : ∀ (e e' : GeoEntry), e'.address_hash = e.address_hash →
      insertGeo (tbl ++ [e]) e' = tbl ++ [e] := by
    intro e e' he
    unfold insertGeo
    rw [if_pos]
    exact List.any_eq_true.mpr ⟨e, by simp, by simp [he]⟩
  have hfind_append : ∀ (e : GeoEntry), e.address_hash = e₁.address_hash →
      findGeo tbl e₁.address_hash = none →
      findGeo (tbl ++ [e]) e₁.address_hash = some e :=
    fun e he hfind => findGeo_append_of_none tbl _ e he hfind
  have hsurvive : ∀ (e e₀ : GeoEntry), findGeo tbl e₁.address_hash = some e₀ →
      findGeo (insertGeo tbl e) e₁.address_hash = some e₀ := by
    intro e e₀ hfind
    unfold insertGeo
    by_cases h : tbl.any fun x => x.address_hash == e.address_hash
    · rw [if_pos h]
      exact hfind
    · rw [if_neg h]
      unfold findGeo at hfind ⊢
      rw [List.find?_append, hfind]
      rfl
  refine ⟨insertGeo_nodup _ _ (insertGeo_nodup _ _ hn),
          insertGeo_nodup _ _ (insertGeo_nodup _ _ hn), ?_, ?_⟩
  · intro hfind
    have h1 : insertGeo tbl e₁ = tbl ++ [e₁] := hnone e₁ rfl hfind
    have h2 : insertGeo tbl e₂ = tbl ++ [e₂] := hnone e₂ hsame.symm hfind
    refine ⟨?_, ?_, ?_, ?_⟩
    · rw [h1, happend e₁ e₂ hsame.symm]
    · rw [h2, happend e₂ e₁ hsame]
    · rw [h1, happend e₁ e₂ hsame.symm]
      exact hfind_append e₁ rfl hfind
    · rw [h2, happend e₂ e₁ hsame]
      exact hfind_append e₂ hsame.symm hfind
  · intro e₀ hfind
    exact ⟨hsurvive e₁ e₀ hfind, hsurvive e₂ e₀ hfind⟩

/-- Witness for C8: two entries with the same hash raced against an
empty table. -/
theorem c8_geocode_store_race_witness :
    ((([] : List GeoEntry)).map (·.address_hash)).Nodup
  ∧ (⟨"h", "757 Painted Lady Ct", 35, -81, some "450910609101007", "address"⟩ :
        GeoEntry).address_hash
      = (⟨"h", "757 painted lady ct", 35, -81, none, "address"⟩ : GeoEntry).address_hash
  ∧ findGeo (insertGeo (insertGeo []
        ⟨"h", "757 Painted Lady Ct", 35, -81, some "450910609101007", "address"⟩)
        ⟨"h", "757 painted lady ct", 35, -81, none, "address"⟩) "h"
      = some ⟨"h", "757 Painted Lady Ct", 35, -81, some "450910609101007", "address"⟩ :=
  ⟨by decide, by decide, by
    have h := (c8_geocode_store_race []
      ⟨"h", "757 Painted Lady Ct", 35, -81, some "450910609101007", "address"⟩
      ⟨"h", "757 painted lady ct", 35, -81, none, "address"⟩
      (by decide) (by decide)).2.2.1 (by decide)
    exact h.2.2.1⟩

/-! ### Lemmas about File Acquisition -/

/-- When every target file already exists locally, the per-file loop
downloads nothing: every file is skipped by the bare `existsSync` check
(sizes are never consulted) and its path is returned. -/
theorem processFiles_all_exist (env : DlEnv) (fs : FS) (files : List FccFileEntry)
    (hex : ∀ f ∈ files, fsHas fs (zipPath f) = true) :
    processFiles env fs files = (files.map zipPath, fs, ⟨0, 0⟩) := by
  induction files with
  | nil => rfl
  | cons f rest ih =>
    have h1 := hex f (List.mem_cons_self f rest)
    have h2 : processFiles env fs rest = (rest.map zipPath, fs, ⟨0, 0⟩) :=
      ih fun g hg => hex g (List.mem_cons_of_mem f hg)
    simp [processFiles, h1, h2]

/-- When every target file is missing and every fetch fails, each file
is attempted exactly once — there is no retry, no backoff and no
timeout — nothing is added to the directory, and no path is returned. -/
theorem processFiles_all_fail (env : DlEnv) (fs : FS) (files : List FccFileEntry)
    (hmiss : ∀ f ∈ files, fsHas fs (zipPath f) = false)
    (hfail : ∀ f ∈ files, env.fetchOk f.file_id = false) :
    processFiles env fs files = ([], fs, ⟨0, files.length⟩) := by
  induction files with
  | nil => rfl
  | cons f rest ih =>
    have h1 := hmiss f (List.mem_cons_self f rest)
    have h2 := hfail f (List.mem_cons_self f rest)
    have h3 : processFiles env fs rest = ([], fs, ⟨0, rest.length⟩) :=
      ih (fun g hg => hmiss g (List.mem_cons_of_mem f hg))
        (fun g hg => hfail g (List.mem_cons_of_mem f hg))
    simp [processFiles, h1, h2, h3, downloadFile, NetCount.add, Nat.add_comm]

/-- When every target of every requested state exists locally, the
state loop performs no downloads and returns all paths. -/
theorem processStates_all_exist (env : DlEnv) (fs : FS) (allFiles : List FccFileEntry)
    (states : List String)
    (hex : ∀ s ∈ states, ∀ f ∈ filterFixedBroadbandFiles allFiles s,
      fsHas fs (zipPath f) = true) :
    processStates env fs allFiles states
      = (states.flatMap (fun s => (filterFixedBroadbandFiles allFiles s).map zipPath),
         fs, ⟨0, 0⟩) := by
  induction states with
  | nil => rfl
  | cons s rest ih =>
    have h1 := processFiles_all_exist env fs _ (hex s (List.mem_cons_self s rest))
    have h2 := ih fun s2 hs2 => hex s2 (List.mem_cons_of_mem s hs2)
    simp [processStates, h1, h2, NetCount.add]

/-- C6: re-running File Acquisition for a release whose catalog is held
in the module-level cache, against a directory that already contains a
local file for every target file (of any size — in particular a
validly-sized one; the code checks bare existence), performs zero
network calls: no catalog listing and no file download. -/
theorem c6_resume_zero_network (env : DlEnv) (fs : FS) (cat : List FccFileEntry)
    (vintage : String) (states : List String)
    (hex : ∀ s ∈ states, ∀ f ∈ filterFixedBroadbandFiles cat s,
      fsHas fs (zipPath f) = true) :
    downloadStateData env ⟨some cat, some vintage⟩ fs vintage states
      = .ok (states.flatMap (fun s => (filterFixedBroadbandFiles cat s).map zipPath),
             ⟨some cat, some vintage⟩, fs, ⟨0, 0⟩) := by
  unfold downloadStateData fetchFileList
  simp [processStates_all_exist env fs cat states hex, NetCount.add]

/-- Witness for C6: one Cable aggregate file for Rhode Island, already
downloaded; the second acquisition run performs zero network calls. -/
theorem c6_resume_zero_network_witness :
    (∀ s ∈ ["44"],
      ∀ f ∈ filterFixedBroadbandFiles
        [⟨7, "bdc_44_Cable_fixed_broadband_J25_03feb2026", "44", "1000000"⟩] s,
        fsHas [("bdc_44_Cable_fixed_broadband_J25_03feb2026.zip", 12345678)]
          (zipPath f) = true)
  ∧ downloadStateData
      ⟨[⟨7, "bdc_44_Cable_fixed_broadband_J25_03feb2026", "44", "1000000"⟩], true,
        fun _ => true, fun _ => 12345678⟩
      ⟨some [⟨7, "bdc_44_Cable_fixed_broadband_J25_03feb2026", "44", "1000000"⟩],
        some "2025-06-30"⟩
      [("bdc_44_Cable_fixed_broadband_J25_03feb2026.zip", 12345678)]
      "2025-06-30" ["44"]
      = .ok (["44"].flatMap (fun s => (filterFixedBroadbandFiles
              [⟨7, "bdc_44_Cable_fixed_broadband_J25_03feb2026", "44", "1000000"⟩] s).map
              zipPath),
             ⟨some [⟨7, "bdc_44_Cable_fixed_broadband_J25_03feb2026", "44", "1000000"⟩],
               some "2025-06-30"⟩,
             [("bdc_44_Cable_fixed_broadband_J25_03feb2026.zip", 12345678)], ⟨0, 0⟩) :=
  ⟨by decide,
   c6_resume_zero_network
     ⟨[⟨7, "bdc_44_Cable_fixed_broadband_J25_03feb2026", "44", "1000000"⟩], true,
       fun _ => true, fun _ => 12345678⟩
     [("bdc_44_Cable_fixed_broadband_J25_03feb2026.zip", 12345678)]
     [⟨7, "bdc_44_Cable_fixed_broadband_J25_03feb2026", "44", "1000000"⟩]
     "2025-06-30" ["44"] (by decide)⟩

/-- C5 counterexample: a zero-byte (hence certainly below any
record-count-derived floor) local copy of a file declaring 1,000,000
records is nevertheless treated as done: the code's only check is
`fs.existsSync`, so the file is skipped with zero download attempts and
its stale path is returned as acquired, where the claim requires a
fresh download with up to 3 attempts. -/
theorem c5_counterexample :
    downloadStateData
      ⟨[⟨7, "bdc_44_Cable_fixed_broadband_J25_03feb2026", "44", "1000000"⟩], true,
        fun _ => false, fun _ => 0⟩
      ⟨some [⟨7, "bdc_44_Cable_fixed_broadband_J25_03feb2026", "44", "1000000"⟩],
        some "2025-06-30"⟩
      [("bdc_44_Cable_fixed_broadband_J25_03feb2026.zip", 0)]
      "2025-06-30" ["44"]
      = .ok (["bdc_44_Cable_fixed_broadband_J25_03feb2026.zip"],
             ⟨some [⟨7, "bdc_44_Cable_fixed_broadband_J25_03feb2026", "44", "1000000"⟩],
               some "2025-06-30"⟩,
             [("bdc_44_Cable_fixed_broadband_J25_03feb2026.zip", 0)], ⟨0, 0⟩) := by
  decide

/-- C5 amended: for every file selected by File Acquisition, if a local
copy exists — of any size, with no record-count floor — the download is
skipped and the existing path returned; otherwise the file is fetched
in a single attempt with no retry, no backoff and no per-attempt
timeout, and a failed attempt leaves the directory unchanged and omits
the file from the results. -/
theorem c5_download_behaviour (env : DlEnv) (fs : FS) (files : List FccFileEntry) :
    ((∀ f ∈ files, fsHas fs (zipPath f) = true) →
        processFiles env fs files = (files.map zipPath, fs, ⟨0, 0⟩))
  ∧ ((∀ f ∈ files, fsHas fs (zipPath f) = false) →
      (∀ f ∈ files, env.fetchOk f.file_id = false) →
        processFiles env fs files = ([], fs, ⟨0, files.length⟩)) :=
  ⟨fun hex => processFiles_all_exist env fs files hex,
   fun hmiss hfail => processFiles_all_fail env fs files hmiss hfail⟩

/-- Witness for C5 at a two-file catalog: both files exist locally (one
zero-byte) and are skipped; and when both are missing and the endpoint
keeps failing, each gets exactly one attempt. -/
theorem c5_download_behaviour_witness :
    (∀ f ∈ [(⟨7, "a", "44", "5"⟩ : FccFileEntry), ⟨8, "b", "44", "9"⟩],
        fsHas [("a.zip", 0), ("b.zip", 3)] (zipPath f) = true)
  ∧ processFiles ⟨[], true, fun _ => false, fun _ => 0⟩ [("a.zip", 0), ("b.zip", 3)]
      [⟨7, "a", "44", "5"⟩, ⟨8, "b", "44", "9"⟩]
      = (["a.zip", "b.zip"], [("a.zip", 0), ("b.zip", 3)], ⟨0, 0⟩)
  ∧ processFiles ⟨[], true, fun _ => false, fun _ => 0⟩ []
      [⟨7, "a", "44", "5"⟩, ⟨8, "b", "44", "9"⟩]
      = ([], [], ⟨0, 2⟩) :=
  ⟨by decide,
   (c5_download_behaviour ⟨[], true, fun _ => false, fun _ => 0⟩
      [("a.zip", 0), ("b.zip", 3)] [⟨7, "a", "44", "5"⟩, ⟨8, "b", "44", "9"⟩]).1
     (by decide),
   (c5_download_behaviour ⟨[], true, fun _ => false, fun _ => 0⟩
      [] [⟨7, "a", "44", "5"⟩, ⟨8, "b", "44", "9"⟩]).2
     (by decide) (by decide)⟩

/-! ### Resolver claim theorems -/

/-- C10: a resolve call whose body has an out-of-range latitude or
longitude, or neither a (lat, lng) pair nor a (non-empty) address,
terminates with the input-error outcome — success `false`, HTTP 400, a
structured error message — before any external call: no geocoder fetch,
no database statement, and the server state unchanged. -/
theorem c10_input_error_before_external (env : Env) (st : SrvState) (i : LookupInput) :
    (validInput i = false →
      postLookup env st i
        = .ok (⟨false, emptyData, some "Invalid request body", 400⟩, st, ⟨0, 0, 0⟩))
  ∧ (validInput i = true → (i.lat.isNone ∨ i.lng.isNone) → strTruthy i.address = false →
      postLookup env st i
        = .ok (⟨false, emptyData, some "Either lat/lng or address is required", 400⟩,
            st, ⟨0, 0, 0⟩)) := by
  constructor
  · intro h
    unfold postLookup
    rw [h]
    rfl
  · intro hv hnone haddr
    cases hlat : i.lat with
    | none =>
      cases hlng : i.lng <;>
        simp [postLookup, hv, haddr, hlat, hlng]
    | some la =>
      cases hlng : i.lng with
      | none => simp [postLookup, hv, haddr, hlat, hlng]
      | some ln =>
        rw [hlat, hlng] at hnone
        rcases hnone with h | h <;> exact absurd h (by simp)

/-- Witness for C10: `lat = 100` (out of range) is rejected with a 400
before any external call, and so is an empty body. -/
theorem c10_input_error_before_external_witness :
    validInput ⟨some 100, some (-80), none⟩ = false
  ∧ postLookup envNoMV ⟨[], []⟩ ⟨some 100, some (-80), none⟩
      = .ok (⟨false, emptyData, some "Invalid request body", 400⟩, ⟨[], []⟩, ⟨0, 0, 0⟩)
  ∧ validInput ⟨none, none, none⟩ = true
  ∧ postLookup envNoMV ⟨[], []⟩ ⟨none, none, none⟩
      = .ok (⟨false, emptyData, some "Either lat/lng or address is required", 400⟩,
          ⟨[], []⟩, ⟨0, 0, 0⟩) :=
  ⟨by decide,
   (c10_input_error_before_external envNoMV ⟨[], []⟩ ⟨some 100, some (-80), none⟩).1
     (by decide),
   by decide,
   (c10_input_error_before_external envNoMV ⟨[], []⟩ ⟨none, none, none⟩).2
     (by decide) (by decide) (by decide)⟩

/-- C4 counterexample: with the Aggregate View absent (the
drop-then-recreate window) and an empty Result Cache, a valid
coordinate resolve call does NOT terminate with a success envelope and
an empty provider list — the database error escapes `lookupProviders`
(which has no try/catch) and the route handler (which has none either),
surfacing as an unhandled hard error. -/
theorem c4_counterexample :
    postLookup envNoMV ⟨[], []⟩ ⟨some 35, some (-81), none⟩ = .error () := by
  decide

/-- C4 amended: if the Aggregate View does not exist at query time, a
coordinate resolve call crashes with an unhandled error whenever the
Result Cache has no entry for the computed cell; only a Result Cache
hit with a non-empty cached list avoids touching the store and answers
normally. -/
theorem c4_missing_view_error (env : Env) (st : SrvState) (la ln : ℚ)
    (hval : validInput ⟨some la, some ln, none⟩ = true)
    (hmv : env.mv = none) :
    (cacheGet st.resultCache (env.h3Of la ln) = none →
      postLookup env st ⟨some la, some ln, none⟩ = .error ())
  ∧ (∀ ps, ps ≠ [] → cacheGet st.resultCache (env.h3Of la ln) = some ps →
      postLookup env st ⟨some la, some ln, none⟩
        = .ok (⟨true, ⟨ps, env.h3Of la ln, env.activeVintage, "h3"⟩, none, 200⟩,
            ⟨st.resultCache, st.geoCache⟩, ⟨0, 0, 1⟩)) := by
  have hstep : postLookup env st ⟨some la, some ln, none⟩
      = postLookupCoords env st la ln none ⟨0, 0, 0⟩ := by
    unfold postLookup
    rw [hval]
    rfl
  constructor
  · intro hmiss
    have hlp : lookupProviders env st.resultCache (env.h3Of la ln) none = .error () := by
      unfold lookupProviders
      rw [hmiss, hmv]
    rw [hstep]
    unfold postLookupCoords
    simp only [hlp]
  · intro ps hne hhit
    have hlp : lookupProviders env st.resultCache (env.h3Of la ln) none
        = .ok (ps, "h3", st.resultCache, ⟨0, 0, 0⟩) := by
      unfold lookupProviders
      rw [hhit]
    rw [hstep]
    unfold postLookupCoords
    simp only [hlp]
    simp [hne, Counters.add]

/-- Witness for C4 (amended): over `envNoMV` the call crashes on an
empty cache and answers from a warm cache entry without a store
query. -/
theorem c4_missing_view_error_witness :
    validInput ⟨some 35, some (-81), none⟩ = true
  ∧ envNoMV.mv = none
  ∧ cacheGet ([] : ResultCache) (envNoMV.h3Of 35 (-81)) = none
  ∧ postLookup envNoMV ⟨[], []⟩ ⟨some 35, some (-81), none⟩ = .error ()
  ∧ postLookup envNoMV ⟨[("h", [qrFix])], []⟩ ⟨some 35, some (-81), none⟩
      = .ok (⟨true, ⟨[qrFix], "h", none, "h3"⟩, none, 200⟩, ⟨[("h", [qrFix])], []⟩,
          ⟨0, 0, 1⟩) :=
  ⟨by decide, rfl, by decide,
   (c4_missing_view_error envNoMV ⟨[], []⟩ 35 (-81) (by decide) rfl).1 (by decide),
   (c4_missing_view_error envNoMV ⟨[("h", [qrFix])], []⟩ 35 (-81) (by decide) rfl).2
     [qrFix] (by decide) (by decide)⟩

/-- When the materialized view exists, `lookupProviders` never fails,
whatever the cache or the block GEOID. -/
theorem lookupProviders_isOk (env : Env) (cache : ResultCache) (h3Index : String)
    (bg : Option String) (rows : List MVRow) (hmv : env.mv = some rows) :
    (lookupProviders env cache h3Index bg).isOk = true := by
  unfold lookupProviders
  cases hc : cacheGet cache h3Index with
  | some cached => rfl
  | none =>
    simp only [hmv]
    split
    · rfl
    · split
      · split
        · rfl
        · rfl
      · rfl

/-- When the materialized view exists, the coordinate path never
fails: Remote Geocoder failures degrade, they do not throw. -/
theorem postLookupCoords_isOk (env : Env) (st : SrvState) (la ln : ℚ)
    (address : Option String) (c0 : Counters) (rows : List MVRow)
    (hmv : env.mv = some rows) :
    (postLookupCoords env st la ln address c0).isOk = true := by
  unfold postLookupCoords
  have h1 := lookupProviders_isOk env st.resultCache (env.h3Of la ln) none rows hmv
  cases hlp : lookupProviders env st.resultCache (env.h3Of la ln) none with
  | error e =>
    rw [hlp] at h1
    simp [Except.isOk, Except.toBool] at h1
  | ok out =>
    rcases out with ⟨providers, method, rc1, c1⟩
    simp only [hlp]
    by_cases hp : providers = []
    · rcases hgc : getCensusBlockGeoid env st.geoCache la ln address with ⟨bg, gc2, c2⟩
      simp only [hp, if_pos, hgc]
      by_cases hbg : strTruthy bg = true
      · have h2 := lookupProviders_isOk env rc1 (env.h3Of la ln) bg rows hmv
        cases hlp2 : lookupProviders env rc1 (env.h3Of la ln) bg with
        | error e =>
          rw [hlp2] at h2
          simp [Except.isOk, Except.toBool] at h2
        | ok out2 =>
          rcases out2 with ⟨a2, b2, c2x, d2⟩
          simp [hbg, hlp2, Except.isOk, Except.toBool]
      · simp [hbg, Except.isOk, Except.toBool]
    · simp [hp, Except.isOk, Except.toBool]

/-- When the materialized view exists, no resolve call ever fails: in
particular a Remote Geocoder failure (modelled by the oracles answering
`none`, covering non-2xx, timeout and malformed payloads) is never
surfaced as a thrown error. -/
theorem postLookup_isOk (env : Env) (st : SrvState) (i : LookupInput)
    (rows : List MVRow) (hmv : env.mv = some rows) :
    (postLookup env st i).isOk = true := by
  unfold postLookup
  by_cases hv : validInput i = true
  · simp only [hv, Bool.not_true, Bool.false_eq_true, if_false]
    by_cases hcond : ((i.lat.isNone || i.lng.isNone) && strTruthy i.address) = true
    · simp only [hcond, if_pos]
      rcases hga : geocodeAddress env st.geoCache (i.address.getD "") with ⟨geo, gc1, c1⟩
      simp only [hga]
      cases geo with
      | none => rfl
      | some triple =>
        rcases triple with ⟨la, ln, bg⟩
        by_cases hbg : strTruthy bg = true
        · have h2 := lookupProviders_isOk env st.resultCache (env.h3Of la ln) bg rows hmv
          cases hlp : lookupProviders env st.resultCache (env.h3Of la ln) bg with
          | error e =>
            rw [hlp] at h2
            simp [Except.isOk, Except.toBool] at h2
          | ok out =>
            rcases out with ⟨a2, b2, c2, d2⟩
            simp [hbg, hlp, Except.isOk, Except.toBool]
        · simp only [hbg, Bool.false_eq_true, if_false]
          exact postLookupCoords_isOk env ⟨st.resultCache, gc1⟩ la ln i.address c1 rows hmv
    · simp only [hcond, Bool.false_eq_true, if_false]
      cases hlat : i.lat with
      | none => rfl
      | some la =>
        cases hlng : i.lng with
        | none => rfl
        | some ln => exact postLookupCoords_isOk env st la ln i.address ⟨0, 0, 0⟩ rows hmv
  · have hv2 : validInput i = false := by
      cases h : validInput i
      · rfl
      · exact absurd h hv
    simp [hv2, Except.isOk, Except.toBool]

/-- C9: Remote Geocoder failures are soft.  When the store exists, no
resolve call surfaces a thrown error regardless of the geocoder
(conjunct 1), and an address-only resolve whose geocoding fails
(remote endpoint answers nothing, nothing cached) terminates as a
success envelope with an empty provider list and the descriptive
"Could not geocode address" note, HTTP 200, with exactly the one failed
remote call. -/
theorem c9_geocoder_failure_soft (env : Env) (st : SrvState) (i : LookupInput)
    (a : String) (rows : List MVRow) :
    (env.mv = some rows → (postLookup env st i).isOk = true)
  ∧ (a ≠ "" → env.byAddr a = none → findGeo st.geoCache (addrHash a) = none →
      postLookup env st ⟨none, none, some a⟩
        = .ok (⟨true, ⟨[], "", none, "h3"⟩, some "Could not geocode address", 200⟩,
            ⟨st.resultCache, st.geoCache⟩, ⟨1, 0, 1⟩)) := by
  constructor
  · intro hmv
    exact postLookup_isOk env st i rows hmv
  · intro ha hba hfg
    have hga : geocodeAddress env st.geoCache a = (none, st.geoCache, ⟨1, 0, 1⟩) := by
      unfold geocodeAddress geocodeAddressRemote
      simp only [hfg, hba]
      rfl
    unfold postLookup
    have hcond : (((⟨none, none, some a⟩ : LookupInput).lat.isNone
        || (⟨none, none, some a⟩ : LookupInput).lng.isNone)
        && strTruthy (⟨none, none, some a⟩ : LookupInput).address) = true := by
      simp [strTruthy, ha]
    simp only [hcond, if_pos]
    simp only [show validInput ⟨none, none, some a⟩ = true from rfl, Bool.not_true,
      Bool.false_eq_true, if_false]
    simp only [show (⟨none, none, some a⟩ : LookupInput).address.getD "" = a from rfl, hga]

/-- Witness for C9: over the one-row store no call crashes, and over
`envNoMV` (whose geocoder always fails) an address-only resolve returns
the empty success envelope with the note. -/
theorem c9_geocoder_failure_soft_witness :
    envC7.mv = some mvFix
  ∧ (postLookup envC7 ⟨[], []⟩ ⟨some 1, some 2, none⟩).isOk = true
  ∧ ("757 z" ≠ "" ∧ envNoMV.byAddr "757 z" = none
      ∧ findGeo ([] : List GeoEntry) (addrHash "757 z") = none)
  ∧ postLookup envNoMV ⟨[], []⟩ ⟨none, none, some "757 z"⟩
      = .ok (⟨true, ⟨[], "", none, "h3"⟩, some "Could not geocode address", 200⟩,
          ⟨[], []⟩, ⟨1, 0, 1⟩) :=
  ⟨rfl,
   (c9_geocoder_failure_soft envC7 ⟨[], []⟩ ⟨some 1, some 2, none⟩ "x" mvFix).1 rfl,
   ⟨by decide, rfl, by decide⟩,
   (c9_geocoder_failure_soft envNoMV ⟨[], []⟩ ⟨none, none, none⟩ "757 z" []).2
     (by decide) rfl (by decide)⟩

/-- C7, evaluated at the failing input: over `envC7` (the address
geocoder resolves `"757 x"` to latitude exactly 0) the first
address-only call answers with a non-empty provider list and populates
the Result Cache under the original cell id `"H"` (first conjunct:
final state holds `("H", [qrFix])`), and the identical second call
returns the identical result set — but its counters show `remoteAddr =
1`: it fetched the remote address geocoder again, because the
geocode-cache hit test `cached.length > 0 && cached[0].lat &&
cached[0].lng` treats the stored latitude 0 as falsy.  The claim
requires zero remote geocoder invocations on the second call. -/
theorem c7_second_call_reinvokes_geocoder :
    postLookup envC7 ⟨[], []⟩ ⟨none, none, some "757 x"⟩
      = .ok (⟨true, ⟨[qrFix], "H", some "v1", "h3"⟩, none, 200⟩,
          ⟨[("H", [qrFix])], [⟨"757 x", "757 x", 0, -81, some "B", "address"⟩]⟩,
          ⟨1, 0, 4⟩)
  ∧ postLookup envC7
      ⟨[("H", [qrFix])], [⟨"757 x", "757 x", 0, -81, some "B", "address"⟩]⟩
      ⟨none, none, some "757 x"⟩
      = .ok (⟨true, ⟨[qrFix], "H", some "v1", "h3"⟩, none, 200⟩,
          ⟨[("H", [qrFix])], [⟨"757 x", "757 x", 0, -81, some "B", "address"⟩]⟩,
          ⟨1, 0, 3⟩) := by
  constructor
  · decide
  · decide

end BroadbandView
